import Mathlib

/-!
Verification development for the GoScript interpreter.

The repository contains two parallel implementations of the same small
scripting language:

* variant A: `lexer.go` (`CreateScanner`, `scanTokens`, ...), the `analyzer`
  parser and the `Environment`-based evaluator (`Node.Evaluate`);
* variant B: the `Parser` (`NewParser`, parselets) and the `Scope`-based
  evaluator (`Node.Eval`); its lexer (`NewLexer`) is not part of the sources.

Both variants are embedded below as executable Lean functions.  Go `int` is
modelled as unbounded `Int` (none of the verified programs approaches the
64-bit range); Go `float64` is modelled as `ℚ`, which is exact for every
floating-point value appearing in the verified programs; host file-system and
console side effects (`import`, `input`) are outside the model and evaluate
to a fatal outcome.  General recursion (evaluation, parsing loops) is made
total with an explicit fuel parameter; running out of fuel is distinguished
from a fatal runtime error.
-/

set_option maxHeartbeats 1000000

namespace GoScript

/-! ### Token kinds and lexemes (lexer.go, variant A)

`TokKind` in the source is a string-typed enumeration; `zeroK` stands for the
zero value `TokKind("")` that a receive from a drained closed channel yields.
-/

inductive TokKind where
  | eofK | lparenK | rparenK | lcurlyK | rcurlyK | lbracketK | rbracketK
  | commaK | dotK | plusK | minusK | starK | slashK | colonK | semiK
  | bangK | questionK | assignK | eqK | neqK | gtK | ltK | geK | leK
  | stringK | intK | floatK | identK | errorK
  | trueK | falseK | ifK | elseK | fnK | printK | printlnK | returnK
  | forK | dotdotK | swapK | inputK | lenK | importK | orK | andK
  | zeroK
  deriving DecidableEq, Repr

structure Lexeme where
  kind : TokKind
  text : String
  deriving DecidableEq, Repr

/-- The `reservedWords` table of lexer.go. -/
def reservedWords (s : String) : Option TokKind :=
  if s = "fn" then some .fnK
  else if s = "print" then some .printK
  else if s = "println" then some .printlnK
  else if s = "return" then some .returnK
  else if s = "true" then some .trueK
  else if s = "false" then some .falseK
  else if s = "if" then some .ifK
  else if s = "else" then some .elseK
  else if s = "for" then some .forK
  else if s = "swap" then some .swapK
  else if s = "input" then some .inputK
  else if s = "len" then some .lenK
  else if s = "import" then some .importK
  else if s = "or" then some .orK
  else if s = "and" then some .andK
  else none

/-- The single-character entries of the `symbolMap` table of lexer.go. -/
def symbolMapSingle (c : Char) : Option TokKind :=
  if c = '(' then some .lparenK
  else if c = ')' then some .rparenK
  else if c = '{' then some .lcurlyK
  else if c = '}' then some .rcurlyK
  else if c = '[' then some .lbracketK
  else if c = ']' then some .rbracketK
  else if c = ',' then some .commaK
  else if c = '.' then some .dotK
  else if c = '+' then some .plusK
  else if c = '-' then some .minusK
  else if c = '*' then some .starK
  else if c = '/' then some .slashK
  else if c = ':' then some .colonK
  else if c = '!' then some .bangK
  else if c = '?' then some .questionK
  else if c = '=' then some .assignK
  else if c = '>' then some .gtK
  else if c = '<' then some .ltK
  else none

/-- The two-character entries of the `symbolMap` table of lexer.go. -/
def symbolMapDouble (a b : Char) : Option TokKind :=
  if a = '.' ∧ b = '.' then some .dotdotK
  else if a = '=' ∧ b = '=' then some .eqK
  else if a = '!' ∧ b = '=' then some .neqK
  else if a = '>' ∧ b = '=' then some .geK
  else if a = '<' ∧ b = '=' then some .leK
  else none

/-- `CreateScanner`'s pre-pass: `strings.NewReplacer` rewriting every
occurrence of the two-character sequences backslash-n / backslash-t /
backslash-r in the raw source into the corresponding control character,
scanning left to right. -/
def replaceEscapes : List Char → List Char
  | '\\' :: 'n' :: rest => '\n' :: replaceEscapes rest
  | '\\' :: 't' :: rest => '\t' :: replaceEscapes rest
  | '\\' :: 'r' :: rest => '\r' :: replaceEscapes rest
  | c :: rest => c :: replaceEscapes rest
  | [] => []

/-- `strings.ReplaceAll(s, "\\\"", "\"")` performed by `scanner.scanString`:
the backslash-quote pair is unescaped to a bare quote; nothing else changes. -/
def replaceBackslashQuote : List Char → List Char
  | '\\' :: '"' :: rest => '"' :: replaceBackslashQuote rest
  | c :: rest => c :: replaceBackslashQuote rest
  | [] => []

/-- Body loop of `scanner.scanString`: consume input until a quote that is not
preceded by a backslash (checked on the text accumulated so far) or until end
of input; returns the accumulated raw body and the remaining input.  On end of
input the loop simply breaks — the partial body is still turned into a token
by the caller. -/
def scanStringLoop (acc : List Char) : List Char → (List Char × List Char)
  | [] => (acc, [])
  | c :: rest =>
    if c = '"' then
      if acc ≠ [] ∧ acc.getLast? = some '\\' then
        scanStringLoop (acc ++ ['"']) rest
      else
        (acc, rest)
    else
      scanStringLoop (acc ++ [c]) rest

/-- `scanner.scanString`: scan the body after the opening quote and emit a
STRING token whose text has backslash-quote unescaped. -/
def scanStringTok (input : List Char) : (Lexeme × List Char) :=
  let (body, rest) := scanStringLoop [] input
  (⟨.stringK, String.mk (replaceBackslashQuote body)⟩, rest)

/-- Letter/digit test used by the scanner (`unicode.IsLetter` /
`unicode.IsDigit`); the sources verified here are ASCII, for which
`Char.isAlpha` / `Char.isDigit` agree with the Go predicates. -/
def isLetterGo (c : Char) : Bool := c.isAlpha
def isDigitGo (c : Char) : Bool := c.isDigit

/-- `scanner.scanIdentifier`: extend the initial letter with letters and
digits, then classify against the reserved-word table. -/
def scanIdentLoop (acc : List Char) : List Char → (List Char × List Char)
  | [] => (acc, [])
  | c :: rest =>
    if isLetterGo c ∨ isDigitGo c then scanIdentLoop (acc ++ [c]) rest
    else (acc, c :: rest)

def scanIdentTok (initial : Char) (input : List Char) : (Lexeme × List Char) :=
  let (chars, rest) := scanIdentLoop [initial] input
  let text := String.mk chars
  match reservedWords text with
  | some kw => (⟨kw, text⟩, rest)
  | none => (⟨.identK, text⟩, rest)

/-- `scanner.scanNumber`: digits form an INT; a dot switches to FLOAT unless
it is immediately followed by a second dot, in which case the digits seen so
far are emitted as INT followed by a `..` token (both dots consumed). -/
def scanNumberLoop (tokType : TokKind) (acc : List Char) :
    List Char → (List Lexeme × List Char)
  | [] => ([⟨tokType, String.mk acc⟩], [])
  | '.' :: rest =>
    match rest with
    | '.' :: rest2 =>
      ([⟨tokType, String.mk acc⟩, ⟨.dotdotK, ".."⟩], rest2)
    | _ => scanNumberLoop .floatK (acc ++ ['.']) rest
  | c :: rest =>
    if isDigitGo c then scanNumberLoop tokType (acc ++ [c]) rest
    else ([⟨tokType, String.mk acc⟩], c :: rest)

def scanNumberToks (initial : Char) (input : List Char) :
    (List Lexeme × List Char) :=
  scanNumberLoop .intK [initial] input

/-- `scanner.scanMultiLineComment`: drop input up to the closing `*/`;
reaching end of input first is `log.Fatal` (a fatal lexical error),
signalled by `none`. -/
def scanMultiLineComment : List Char → Option (List Char)
  | [] => none
  | '*' :: rest =>
    match rest with
    | [] => none
    | '/' :: rest2 => some rest2
    | _ :: _ => scanMultiLineComment rest
  | _ :: rest => scanMultiLineComment rest

/-- `s.rdr.ReadString('\n')` as used for `//` comments: drop up to and
including the next newline (or all remaining input). -/
def dropLineComment : List Char → List Char
  | [] => []
  | '\n' :: rest => rest
  | _ :: rest => dropLineComment rest

/-- Result of running a scanner/parser/evaluator stage: a normal result, a
fatal abort (`log.Fatal` / panic), or out of fuel. -/
inductive Res (α : Type) where
  | ok (a : α)
  | fatal (msg : String)
  | spin
  deriving Repr, DecidableEq

/-- `scanner.scanSymbol`: greedily match a two-character operator, else start
a `//` or `/*` comment, else match a single-character symbol; an unrecognized
character produces no token at all (it is silently skipped).  Returns the
emitted token (if any), the remaining input, and whether a block comment
must be skipped first (`none` in the comment slot means fatal is impossible
here; comments are handled by the caller loop). -/
inductive SymbolStep where
  | tok (l : Lexeme) (rest : List Char)
  | skip (rest : List Char)
  | lineComment (rest : List Char)
  | blockComment (rest : List Char)

def scanSymbolStep (c : Char) (input : List Char) : SymbolStep :=
  match input with
  | d :: rest =>
    match symbolMapDouble c d with
    | some k => .tok ⟨k, String.mk [c, d]⟩ rest
    | none =>
      if c = '/' ∧ d = '/' then .lineComment (d :: rest)
      else if c = '/' ∧ d = '*' then .blockComment rest
      else
        match symbolMapSingle c with
        | some k => .tok ⟨k, String.mk [c]⟩ (d :: rest)
        | none => .skip (d :: rest)
  | [] =>
    match symbolMapSingle c with
    | some k => .tok ⟨k, String.mk [c]⟩ []
    | none => .skip []

/-- The main loop of `scanner.scanTokens`, with fuel.  At end of input a
single EOF token is appended. -/
def scanTokens : Nat → List Char → Res (List Lexeme)
  | 0, _ => .spin
  | _ + 1, [] => .ok [⟨.eofK, ""⟩]
  | fuel + 1, c :: rest =>
    if c = '"' then
      let (tok, rest2) := scanStringTok rest
      match scanTokens fuel rest2 with
      | .ok toks => .ok (tok :: toks)
      | other => other
    else if isDigitGo c then
      let (toks1, rest2) := scanNumberToks c rest
      match scanTokens fuel rest2 with
      | .ok toks => .ok (toks1 ++ toks)
      | other => other
    else if isLetterGo c then
      let (tok, rest2) := scanIdentTok c rest
      match scanTokens fuel rest2 with
      | .ok toks => .ok (tok :: toks)
      | other => other
    else
      match scanSymbolStep c rest with
      | .tok tok rest2 =>
        match scanTokens fuel rest2 with
        | .ok toks => .ok (tok :: toks)
        | other => other
      | .skip rest2 => scanTokens fuel rest2
      | .lineComment rest2 => scanTokens fuel (dropLineComment rest2)
      | .blockComment rest2 =>
        match scanMultiLineComment rest2 with
        | none => .fatal "unterminated block comment"
        | some rest3 => scanTokens fuel rest3

/-- `CreateScanner`: the global escape pre-substitution runs over the entire
raw source before any tokenization. -/
def createScannerToks (fuel : Nat) (src : String) : Res (List Lexeme) :=
  scanTokens fuel (replaceEscapes src.data)

/-! ### AST and parser of the `analyzer` variant (variant A)

The `analyzer` reads lexemes through a one-token lookahead (`curLex`,
`nxtLex`); the channel is modelled as the unread token list, with a drained
channel yielding EOF inside `advance` (which checks the receive flag) and the
zero lexeme in the two unchecked initial receives. -/

def eofLex : Lexeme := ⟨.eofK, ""⟩

def zeroLex : Lexeme := ⟨.zeroK, ""⟩

structure IdentA where
  lex : Lexeme
  isFunc : Bool
  deriving DecidableEq, Repr

inductive NodeA where
  | nilNode
  | arrayLit (elems : List NodeA)
  | strLit (v : String)
  | identN (id : IdentA)
  | intLit (lex : Lexeme) (v : Int)
  | floatLit (lex : Lexeme) (v : ℚ)
  | boolLit (lex : Lexeme) (v : Bool)
  | retStmt (e : NodeA)
  | varAssign (name : NodeA) (value : NodeA)
  | prefixOpN (lex : Lexeme) (e : NodeA)
  | infixOpN (lex : Lexeme) (l : NodeA) (r : NodeA)
  | ifStmt (cond : NodeA) (thenB : List NodeA) (elseB : Option (List NodeA))
  | forStmt (key : IdentA) (val : Option IdentA) (target : NodeA)
      (body : List NodeA)
  | rangeExpr (frm : NodeA) (toN : NodeA) (step : Option NodeA)
  | printStmt (args : List NodeA) (newline : Bool)
  | indexExpr (coll : NodeA) (idx : NodeA)
  | mapLit (pairs : List (NodeA × NodeA))
  | funcLit (name : String) (params : List IdentA) (body : List NodeA)
  | callExpr (fn : NodeA) (args : List NodeA)
  | swapStmt (a : NodeA) (b : NodeA)
  | importStmt (file : NodeA)
  | inputStmt (prompt : NodeA)
  | lenExpr (target : NodeA)
  deriving Repr

/-- The Go interface value `Node(nil)`; `parseExpr` leaves `left` at nil when
no prefix handler is registered for the current token. -/
def NodeA.isNil : NodeA → Bool
  | .nilNode => true
  | _ => false

/-- Parser state: current lexeme, lookahead lexeme, unread channel
contents. -/
structure PSA where
  cur : Lexeme
  nxt : Lexeme
  rest : List Lexeme
  deriving Repr

/-- `analyzer.advance`: shift the lookahead; a receive from the exhausted
(closed) channel is detected via the `ok` flag and replaced by EOF. -/
def advanceA (s : PSA) : PSA :=
  match s.rest with
  | [] => ⟨s.nxt, eofLex, []⟩
  | t :: r => ⟨s.nxt, t, r⟩

/-- The two initial receives of `CreateParser` (these do not check the
channel-closed flag, so a missing token is the zero lexeme). -/
def initPSA (toks : List Lexeme) : PSA :=
  match toks with
  | [] => ⟨zeroLex, zeroLex, []⟩
  | [a] => ⟨a, zeroLex, []⟩
  | a :: b :: r => ⟨a, b, r⟩

/-- The `precedences` table combined with `analyzer.getPrecedence`
(missing entries default to `LOWEST_PREC = 1`). -/
def getPrecedenceA (k : TokKind) : Nat :=
  match k with
  | .assignK | .eqK | .neqK => 2
  | .ltK | .gtK | .leK | .geK => 3
  | .plusK | .minusK => 4
  | .slashK | .starK => 5
  | .lparenK => 7
  | .lbracketK => 8
  | .dotdotK => 9
  | _ => 1

/-- The registered prefix-handler kinds (keys of `prefixParsers`). -/
def hasInfixHandlerA (k : TokKind) : Bool :=
  match k with
  | .orK | .andK | .plusK | .minusK | .starK | .slashK | .eqK | .neqK
  | .gtK | .geK | .ltK | .leK | .lparenK | .lbracketK | .dotdotK
  | .assignK => true
  | _ => false

/-- `strconv.Atoi` with the error discarded (as in `parseInteger`'s
`v, _ :=`): an all-digit string (with optional sign) converts, anything else
yields 0. -/
def digitsToNat (ds : List Char) : Nat :=
  ds.foldl (fun a c => a * 10 + (c.toNat - 48)) 0

def atoiGo (s : String) : Int :=
  let core (ds : List Char) (sign : Int) : Int :=
    if ds ≠ [] ∧ ds.all (fun c => c.isDigit) then sign * digitsToNat ds else 0
  match s.data with
  | '-' :: ds => core ds (-1)
  | '+' :: ds => core ds 1
  | ds => core ds 1

/-- Rational arithmetic spelled out through `mkRat` (definitionally equal to
the `ℚ` field operations — see the bridge lemmas `ratAdd_eq` etc. below —
but written so that the kernel can evaluate concrete runs). -/
def ratAdd (a b : ℚ) : ℚ := mkRat (a.num * b.den + b.num * a.den) (a.den * b.den)

def ratSub (a b : ℚ) : ℚ := mkRat (a.num * b.den - b.num * a.den) (a.den * b.den)

def ratMul (a b : ℚ) : ℚ := mkRat (a.num * b.num) (a.den * b.den)

/-- Division of the rational float model; a zero divisor yields 0 here where
Go's float64 would give an infinity (no verified program divides a float by
zero). -/
def ratDiv (a b : ℚ) : ℚ :=
  if b.num < 0 then mkRat (-(a.num * b.den)) (a.den * b.num.natAbs)
  else mkRat (a.num * b.den) (a.den * b.num.natAbs)

def ratNeg (a : ℚ) : ℚ := mkRat (-a.num) a.den

def intToRat (n : Int) : ℚ := mkRat n 1

theorem intToRat_eq (n : Int) : intToRat n = (n : ℚ) := by
  rw [intToRat, Rat.mkRat_eq_div]
  simp

theorem ratAdd_eq (a b : ℚ) : ratAdd a b = a + b := by
  rw [ratAdd, ← Rat.mkRat_add_mkRat a.num b.num a.den_nz b.den_nz,
    Rat.mkRat_self, Rat.mkRat_self]

theorem ratNeg_eq (a : ℚ) : ratNeg a = -a := by
  rw [ratNeg, ← Rat.mkRat_self (-a), Rat.neg_num, Rat.neg_den]

theorem ratSub_eq (a b : ℚ) : ratSub a b = a - b := by
  have h : ratSub a b = ratAdd a (-b) := by
    rw [ratSub, ratAdd, Rat.neg_num, Rat.neg_den]
    congr 1
    ring
  rw [h, ratAdd_eq, ← sub_eq_add_neg]

theorem ratMul_eq (a b : ℚ) : ratMul a b = a * b := by
  rw [ratMul, ← Rat.mkRat_mul_mkRat, Rat.mkRat_self, Rat.mkRat_self]

/-- `strconv.ParseFloat` with the error discarded, restricted to the plain
decimal forms the scanner can emit; an invalid literal yields 0.  Modelled
exactly over `ℚ` (the verified programs use only literals whose `float64`
value is exact). -/
def parseFloatGo (s : String) : ℚ :=
  let core (ds : List Char) (sign : Int) : ℚ :=
    match ds.splitOn '.' with
    | [ip] =>
      if ip ≠ [] ∧ ip.all (fun c => c.isDigit) then
        mkRat (sign * digitsToNat ip) 1
      else 0
    | [ip, fp] =>
      if (ip ≠ [] ∨ fp ≠ []) ∧ ip.all (fun c => c.isDigit) ∧
          fp.all (fun c => c.isDigit) then
        mkRat (sign * (digitsToNat ip * 10 ^ fp.length + digitsToNat fp))
          (10 ^ fp.length)
      else 0
    | _ => 0
  match s.data with
  | '-' :: ds => core ds (-1)
  | '+' :: ds => core ds 1
  | ds => core ds 1

/-- `strconv.ParseBool` with the error discarded (`parseBool`). -/
def parseBoolGo (s : String) : Bool :=
  s = "1" ∨ s = "t" ∨ s = "T" ∨ s = "true" ∨ s = "TRUE" ∨ s = "True"

/-- `analyzer.parseIdent`: the reference is marked as a function reference
exactly when the next token is `(`. -/
def parseIdentIdA (s : PSA) : IdentA :=
  ⟨s.cur, s.nxt.kind = .lparenK⟩

/-- One level of the mutually recursive functions below; level `n + 1`
calls level `n` through `P`, so the fuel argument of the wrappers
decrements on every call exactly as the Go call tree recurses. -/
structure ParsePackA where
  parseExprA : Nat → PSA → Option (NodeA × PSA)
  prefixDispatchA : PSA → Option (NodeA × PSA)
  parseExprLoopA : Nat → NodeA → PSA → Option (NodeA × PSA)
  infixDispatchA : NodeA → PSA → Option (NodeA × PSA)
  parseInfixOpA : NodeA → PSA → Option (NodeA × PSA)
  parseVarAssignA : NodeA → PSA → Option (NodeA × PSA)
  parseGroupA : PSA → Option (NodeA × PSA)
  parsePrefixOpA : PSA → Option (NodeA × PSA)
  parseRetA : PSA → Option (NodeA × PSA)
  parseBlockLoopA : List NodeA → PSA → Option (List NodeA × PSA)
  parseBlockA : PSA → Option (List NodeA × PSA)
  parseIfA : PSA → Option (NodeA × PSA)
  parseForA : PSA → Option (NodeA × PSA)
  parseRangeA : NodeA → PSA → Option (NodeA × PSA)
  parsePrintA : PSA → Option (NodeA × PSA)
  parseArgListA : PSA → Option (List NodeA × PSA)
  parseArgListLoopA : List NodeA → PSA → Option (List NodeA × PSA)
  parseArrayA : PSA → Option (NodeA × PSA)
  parseArrayLoopA : List NodeA → PSA → Option (List NodeA × PSA)
  parseIndexA : NodeA → PSA → Option (NodeA × PSA)
  parseMapA : PSA → Option (NodeA × PSA)
  parseMapLoopA : List (NodeA × NodeA) → PSA → Option (List (NodeA × NodeA) × PSA)
  parseFunctionA : PSA → Option (NodeA × PSA)
  parseParamListA : PSA → Option (List IdentA × PSA)
  parseParamListLoopA : List IdentA → PSA → Option (List IdentA × PSA)
  parseCallA : NodeA → PSA → Option (NodeA × PSA)
  parseSwapA : PSA → Option (NodeA × PSA)
  parseImportA : PSA → Option (NodeA × PSA)
  parseInputA : PSA → Option (NodeA × PSA)
  parseLenA : PSA → Option (NodeA × PSA)

/-- Level 0: out of fuel everywhere. -/
def ParsePackABase : ParsePackA where
  parseExprA := fun _ _ => none
  prefixDispatchA := fun _ => none
  parseExprLoopA := fun _ _ _ => none
  infixDispatchA := fun _ _ => none
  parseInfixOpA := fun _ _ => none
  parseVarAssignA := fun _ _ => none
  parseGroupA := fun _ => none
  parsePrefixOpA := fun _ => none
  parseRetA := fun _ => none
  parseBlockLoopA := fun _ _ => none
  parseBlockA := fun _ => none
  parseIfA := fun _ => none
  parseForA := fun _ => none
  parseRangeA := fun _ _ => none
  parsePrintA := fun _ => none
  parseArgListA := fun _ => none
  parseArgListLoopA := fun _ _ => none
  parseArrayA := fun _ => none
  parseArrayLoopA := fun _ _ => none
  parseIndexA := fun _ _ => none
  parseMapA := fun _ => none
  parseMapLoopA := fun _ _ => none
  parseFunctionA := fun _ => none
  parseParamListA := fun _ => none
  parseParamListLoopA := fun _ _ => none
  parseCallA := fun _ _ => none
  parseSwapA := fun _ => none
  parseImportA := fun _ => none
  parseInputA := fun _ => none
  parseLenA := fun _ => none

def ParsePackAStep (_ : Nat) (P : ParsePackA) : ParsePackA where
  parseExprA := fun prec s =>
      match P.prefixDispatchA s with
      | none => none
      | some (left, s1) => P.parseExprLoopA prec left s1

  prefixDispatchA := fun s =>
      match s.cur.kind with
      | .identK => some (.identN (parseIdentIdA s), s)
      | .stringK => some (.strLit s.cur.text, s)
      | .intK => some (.intLit s.cur (atoiGo s.cur.text), s)
      | .floatK => some (.floatLit s.cur (parseFloatGo s.cur.text), s)
      | .minusK => P.parsePrefixOpA s
      | .bangK => P.parsePrefixOpA s
      | .trueK => some (.boolLit s.cur (parseBoolGo s.cur.text), s)
      | .falseK => some (.boolLit s.cur (parseBoolGo s.cur.text), s)
      | .lparenK => P.parseGroupA s
      | .ifK => P.parseIfA s
      | .fnK => P.parseFunctionA s
      | .printK => P.parsePrintA s
      | .printlnK => P.parsePrintA s
      | .lbracketK => P.parseArrayA s
      | .lcurlyK => P.parseMapA s
      | .forK => P.parseForA s
      | .returnK => P.parseRetA s
      | .swapK => P.parseSwapA s
      | .inputK => P.parseInputA s
      | .lenK => P.parseLenA s
      | .importK => P.parseImportA s
      | _ => some (.nilNode, s)

  parseExprLoopA := fun prec left s =>
      if getPrecedenceA s.nxt.kind > prec then
        if hasInfixHandlerA s.nxt.kind then
          let s1 := advanceA s
          match P.infixDispatchA left s1 with
          | none => none
          | some (left2, s2) => P.parseExprLoopA prec left2 s2
        else some (left, s)
      else some (left, s)

  infixDispatchA := fun left s =>
      match s.cur.kind with
      | .lparenK => P.parseCallA left s
      | .lbracketK => P.parseIndexA left s
      | .dotdotK => P.parseRangeA left s
      | .assignK => P.parseVarAssignA left s
      | _ => P.parseInfixOpA left s

  parseInfixOpA := fun left s =>
      let op := s.cur
      let prec := getPrecedenceA s.cur.kind
      match P.parseExprA prec (advanceA s) with
      | none => none
      | some (right, s1) => some (.infixOpN op left right, s1)

  parseVarAssignA := fun left s =>
      match P.parseExprA 1 (advanceA s) with
      | none => none
      | some (v, s1) => some (.varAssign left v, s1)

  parseGroupA := fun s =>
      match P.parseExprA 1 (advanceA s) with
      | none => none
      | some (e, s1) => some (e, advanceA s1)

  parsePrefixOpA := fun s =>
      let op := s.cur
      match P.parseExprA 6 (advanceA s) with
      | none => none
      | some (e, s1) => some (.prefixOpN op e, s1)

  parseRetA := fun s =>
      match P.parseExprA 1 (advanceA s) with
      | none => none
      | some (e, s1) => some (.retStmt e, s1)

  parseBlockLoopA := fun acc s =>
      if s.nxt.kind = .rcurlyK then some (acc, advanceA s)
      else
        match P.parseExprA 1 (advanceA s) with
        | none => none
        | some (e, s1) => P.parseBlockLoopA (acc ++ [e]) s1

  parseBlockA := fun s =>
  P.parseBlockLoopA [] s

  parseIfA := fun s =>
      match P.parseExprA 1 (advanceA s) with
      | none => none
      | some (cond, s1) =>
        match P.parseBlockA (advanceA s1) with
        | none => none
        | some (thenB, s2) =>
          if s2.nxt.kind = .elseK then
            match P.parseBlockA (advanceA (advanceA s2)) with
            | none => none
            | some (elseB, s3) => some (.ifStmt cond thenB (some elseB), s3)
          else some (.ifStmt cond thenB none, s2)

  parseForA := fun s =>
      let s1 := advanceA s
      let key := parseIdentIdA s1
      let (val, s2) :=
        if s1.nxt.kind = .commaK then
          let s1' := advanceA (advanceA s1)
          (some (parseIdentIdA s1'), s1')
        else (none, s1)
      match P.parseExprA 1 (advanceA (advanceA s2)) with
      | none => none
      | some (target, s3) =>
        match P.parseBlockA (advanceA s3) with
        | none => none
        | some (body, s4) => some (.forStmt key val target body, s4)

  parseRangeA := fun left s =>
      match P.parseExprA 1 (advanceA s) with
      | none => none
      | some (toN, s1) =>
        if s1.nxt.kind = .colonK then
          match P.parseExprA 1 (advanceA (advanceA s1)) with
          | none => none
          | some (step, s2) => some (.rangeExpr left toN (some step), s2)
        else some (.rangeExpr left toN none, s1)

  parsePrintA := fun s =>
      let newline := s.cur.kind = .printlnK
      match P.parseArgListA (advanceA s) with
      | none => none
      | some (args, s1) => some (.printStmt args newline, s1)

  parseArgListA := fun s =>
  P.parseArgListLoopA [] s

  parseArgListLoopA := fun acc s =>
      if s.nxt.kind = .rparenK then some (acc, advanceA s)
      else
        let s1 := advanceA s
        let s2 := if s1.cur.kind = .commaK then advanceA s1 else s1
        match P.parseExprA 1 s2 with
        | none => none
        | some (e, s3) => P.parseArgListLoopA (acc ++ [e]) s3

  parseArrayA := fun s =>
      match P.parseArrayLoopA [] (advanceA s) with
      | none => none
      | some (elems, s1) => some (.arrayLit elems, s1)

  parseArrayLoopA := fun acc s =>
      if s.cur.kind = .rbracketK then some (acc, s)
      else
        match P.parseExprA 1 s with
        | none => none
        | some (e, s1) =>
          let s2 := advanceA s1
          let s3 := if s2.cur.kind = .commaK then advanceA s2 else s2
          P.parseArrayLoopA (acc ++ [e]) s3

  parseIndexA := fun left s =>
      match P.parseExprA 1 (advanceA s) with
      | none => none
      | some (idx, s1) => some (.indexExpr left idx, advanceA s1)

  parseMapA := fun s =>
      match P.parseMapLoopA [] (advanceA s) with
      | none => none
      | some (pairs, s1) => some (.mapLit pairs, s1)

  parseMapLoopA := fun acc s =>
      match P.parseExprA 1 s with
      | none => none
      | some (key, s1) =>
        match P.parseExprA 1 (advanceA (advanceA s1)) with
        | none => none
        | some (val, s2) =>
          let acc2 := acc ++ [(key, val)]
          let s3 := if s2.nxt.kind = .commaK then advanceA (advanceA s2) else s2
          if s3.nxt.kind = .rcurlyK then some (acc2, advanceA s3)
          else P.parseMapLoopA acc2 s3

  parseFunctionA := fun s =>
      let s1 := advanceA s
      let name := s1.cur.text
      match P.parseParamListA (advanceA s1) with
      | none => none
      | some (params, s2) =>
        match P.parseBlockA s2 with
        | none => none
        | some (body, s3) => some (.funcLit name params body, s3)

  parseParamListA := fun s =>
  P.parseParamListLoopA [] s

  parseParamListLoopA := fun acc s =>
      if s.nxt.kind = .rparenK then some (acc, advanceA (advanceA s))
      else
        let s1 := advanceA s
        let s2 := if s1.cur.kind = .commaK then advanceA s1 else s1
        P.parseParamListLoopA (acc ++ [⟨s2.cur, false⟩]) s2

  parseCallA := fun left s =>
      match P.parseArgListA s with
      | none => none
      | some (args, s1) => some (.callExpr left args, s1)

  parseSwapA := fun s =>
      match P.parseExprA 1 (advanceA (advanceA s)) with
      | none => none
      | some (a, s1) =>
        match P.parseExprA 1 (advanceA (advanceA s1)) with
        | none => none
        | some (b, s2) => some (.swapStmt a b, s2)

  parseImportA := fun s =>
      match P.parseExprA 1 (advanceA (advanceA s)) with
      | none => none
      | some (e, s1) => some (.importStmt e, advanceA s1)

  parseInputA := fun s =>
      match P.parseExprA 1 (advanceA (advanceA s)) with
      | none => none
      | some (e, s1) => some (.inputStmt e, advanceA s1)

  parseLenA := fun s =>
      match P.parseExprA 1 (advanceA (advanceA s)) with
      | none => none
      | some (e, s1) => some (.lenExpr e, advanceA s1)


def ParsePackAAt : Nat → ParsePackA := fun fuel =>
  Nat.rec ParsePackABase (fun n ih => ParsePackAStep n ih) fuel

/-- `analyzer.parseExpr`: run the prefix handler for the current token (or
leave the left side nil), then fold infix handlers while the lookahead binds
strictly tighter. -/
def parseExprA (fuel : Nat) (x1 : Nat) (x2 : PSA) : Option (NodeA × PSA) :=
  (ParsePackAAt fuel).parseExprA x1 x2

/-- Dispatch on `prefixParsers[curLex.Kind]`; an unregistered kind leaves
the left-hand side at nil with the state untouched. -/
def prefixDispatchA (fuel : Nat) (x1 : PSA) : Option (NodeA × PSA) :=
  (ParsePackAAt fuel).prefixDispatchA x1

/-- The `for nextPrec > prec` folding loop of `parseExpr`; a lookahead with
no infix handler returns the left side as is. -/
def parseExprLoopA (fuel : Nat) (x1 : Nat) (x2 : NodeA) (x3 : PSA) : Option (NodeA × PSA) :=
  (ParsePackAAt fuel).parseExprLoopA x1 x2 x3

/-- Dispatch on `infixParsers[curLex.Kind]` (the caller advanced first, as in
the source). -/
def infixDispatchA (fuel : Nat) (x1 : NodeA) (x2 : PSA) : Option (NodeA × PSA) :=
  (ParsePackAAt fuel).infixDispatchA x1 x2

/-- `analyzer.parseInfixOperator`. -/
def parseInfixOpA (fuel : Nat) (x1 : NodeA) (x2 : PSA) : Option (NodeA × PSA) :=
  (ParsePackAAt fuel).parseInfixOpA x1 x2

/-- `analyzer.parseVarAssign`. -/
def parseVarAssignA (fuel : Nat) (x1 : NodeA) (x2 : PSA) : Option (NodeA × PSA) :=
  (ParsePackAAt fuel).parseVarAssignA x1 x2

/-- `analyzer.parseGroup`. -/
def parseGroupA (fuel : Nat) (x1 : PSA) : Option (NodeA × PSA) :=
  (ParsePackAAt fuel).parseGroupA x1

/-- `analyzer.parsePrefixOperator` (`PREC_PREFIX = 6`). -/
def parsePrefixOpA (fuel : Nat) (x1 : PSA) : Option (NodeA × PSA) :=
  (ParsePackAAt fuel).parsePrefixOpA x1

/-- `analyzer.parseRet`. -/
def parseRetA (fuel : Nat) (x1 : PSA) : Option (NodeA × PSA) :=
  (ParsePackAAt fuel).parseRetA x1

/-- The statement loop of `analyzer.parseBlock`: keep parsing while the
lookahead is not `}`; on exit consume the `}`.  Note there is no
end-of-stream check — at EOF the lookahead stays EOF and the loop never
exits. -/
def parseBlockLoopA (fuel : Nat) (x1 : List NodeA) (x2 : PSA) : Option (List NodeA × PSA) :=
  (ParsePackAAt fuel).parseBlockLoopA x1 x2

/-- `analyzer.parseBlock`. -/
def parseBlockA (fuel : Nat) (x1 : PSA) : Option (List NodeA × PSA) :=
  (ParsePackAAt fuel).parseBlockA x1

/-- `analyzer.parseIf` (`checkNext(ELSE_T)` advances when it matches). -/
def parseIfA (fuel : Nat) (x1 : PSA) : Option (NodeA × PSA) :=
  (ParsePackAAt fuel).parseIfA x1

/-- `analyzer.parseFor` (note the two bare `advance()` calls standing for the
repeated `for` keyword of the grammar). -/
def parseForA (fuel : Nat) (x1 : PSA) : Option (NodeA × PSA) :=
  (ParsePackAAt fuel).parseForA x1

/-- `analyzer.parseRange` (the step is parsed only when `:` immediately
follows). -/
def parseRangeA (fuel : Nat) (x1 : NodeA) (x2 : PSA) : Option (NodeA × PSA) :=
  (ParsePackAAt fuel).parseRangeA x1 x2

/-- `analyzer.parsePrint`. -/
def parsePrintA (fuel : Nat) (x1 : PSA) : Option (NodeA × PSA) :=
  (ParsePackAAt fuel).parsePrintA x1

/-- `analyzer.parseArgList`: elements until the lookahead is `)`,
skipping a comma at the start of each element. -/
def parseArgListA (fuel : Nat) (x1 : PSA) : Option (List NodeA × PSA) :=
  (ParsePackAAt fuel).parseArgListA x1

def parseArgListLoopA (fuel : Nat) (x1 : List NodeA) (x2 : PSA) : Option (List NodeA × PSA) :=
  (ParsePackAAt fuel).parseArgListLoopA x1 x2

/-- `analyzer.parseArray`. -/
def parseArrayA (fuel : Nat) (x1 : PSA) : Option (NodeA × PSA) :=
  (ParsePackAAt fuel).parseArrayA x1

def parseArrayLoopA (fuel : Nat) (x1 : List NodeA) (x2 : PSA) : Option (List NodeA × PSA) :=
  (ParsePackAAt fuel).parseArrayLoopA x1 x2

/-- `analyzer.parseIndex`. -/
def parseIndexA (fuel : Nat) (x1 : NodeA) (x2 : PSA) : Option (NodeA × PSA) :=
  (ParsePackAAt fuel).parseIndexA x1 x2

/-- `analyzer.parseMap` (entries are kept in insertion order; the Go
`map[Node]Node` iterates them unordered, which no verified program
observes). -/
def parseMapA (fuel : Nat) (x1 : PSA) : Option (NodeA × PSA) :=
  (ParsePackAAt fuel).parseMapA x1

def parseMapLoopA (fuel : Nat) (x1 : List (NodeA × NodeA)) (x2 : PSA) : Option (List (NodeA × NodeA) × PSA) :=
  (ParsePackAAt fuel).parseMapLoopA x1 x2

/-- `analyzer.parseFunction`. -/
def parseFunctionA (fuel : Nat) (x1 : PSA) : Option (NodeA × PSA) :=
  (ParsePackAAt fuel).parseFunctionA x1

/-- `analyzer.parseParamList` (parameters are `Ident`s with `IsFunc`
unset). -/
def parseParamListA (fuel : Nat) (x1 : PSA) : Option (List IdentA × PSA) :=
  (ParsePackAAt fuel).parseParamListA x1

def parseParamListLoopA (fuel : Nat) (x1 : List IdentA) (x2 : PSA) : Option (List IdentA × PSA) :=
  (ParsePackAAt fuel).parseParamListLoopA x1 x2

/-- `analyzer.parseCall` (the caller already advanced onto `(`). -/
def parseCallA (fuel : Nat) (x1 : NodeA) (x2 : PSA) : Option (NodeA × PSA) :=
  (ParsePackAAt fuel).parseCallA x1 x2

/-- `analyzer.parseSwap` (no closing advance in the source). -/
def parseSwapA (fuel : Nat) (x1 : PSA) : Option (NodeA × PSA) :=
  (ParsePackAAt fuel).parseSwapA x1

/-- `analyzer.parseImport`. -/
def parseImportA (fuel : Nat) (x1 : PSA) : Option (NodeA × PSA) :=
  (ParsePackAAt fuel).parseImportA x1

/-- `analyzer.parseInput`. -/
def parseInputA (fuel : Nat) (x1 : PSA) : Option (NodeA × PSA) :=
  (ParsePackAAt fuel).parseInputA x1

/-- `analyzer.parseLen`. -/
def parseLenA (fuel : Nat) (x1 : PSA) : Option (NodeA × PSA) :=
  (ParsePackAAt fuel).parseLenA x1


/-- `analyzer.processParsing`: parse top-level expressions until the current
token is EOF, dropping nil results. -/
def processLoopA : Nat → List NodeA → PSA → Option (List NodeA)
  | 0, _, _ => none
  | fuel + 1, acc, s =>
    if s.cur.kind = .eofK then some acc
    else
      match parseExprA fuel 1 s with
      | none => none
      | some (node, s1) =>
        let acc2 := if node.isNil then acc else acc ++ [node]
        processLoopA fuel acc2 (advanceA s1)

def parseProgramA (fuel : Nat) (toks : List Lexeme) : Option (List NodeA) :=
  processLoopA fuel [] (initPSA toks)

/-! ### Runtime values and environments (variant A evaluator)

Runtime values mirror the dynamic `any` union of the evaluator.  Go `int` is
modelled as `Int` (the verified programs stay far inside the 64-bit range, so
wrap-around never matters) and `float64` as `ℚ` (exact for every float the
verified programs construct).  `Environment`s are mutable and shared by
pointer in Go; they are modelled as a heap (list indexed by allocation
order) threaded through evaluation, so a closure's captured environment
reference stays valid and observable. -/

inductive ValueA where
  | vnil
  | vint (n : Int)
  | vfloat (q : ℚ)
  | vstr (s : String)
  | vbool (b : Bool)
  | varr (elems : List ValueA)
  | vmap (pairs : List (ValueA × ValueA))
  | vfn (name : String) (params : List IdentA) (body : List NodeA) (env : Nat)
  deriving Repr

def ValueA.isNilV : ValueA → Bool
  | .vnil => true
  | _ => false

/-- Equality of runtime values as Go's `==` on `any` sees it for the
comparable kinds (used only for map keys, which the verified programs keep
to scalars). -/
def veqA : ValueA → ValueA → Bool
  | .vnil, .vnil => true
  | .vint a, .vint b => a = b
  | .vfloat a, .vfloat b => a = b
  | .vstr a, .vstr b => a = b
  | .vbool a, .vbool b => a = b
  | _, _ => false

structure EnvA where
  vars : List (String × ValueA)
  funcs : List (String × ValueA)
  parent : Option Nat
  deriving Repr

structure StateA where
  heap : List EnvA
  out : List (List ValueA)
  deriving Repr

def emptyStateA : StateA := ⟨[⟨[], [], none⟩], []⟩

def assocSet {β : Type} (l : List (String × β)) (k : String) (v : β) :
    List (String × β) :=
  match l with
  | [] => [(k, v)]
  | (k', v') :: r => if k' = k then (k, v) :: r else (k', v') :: assocSet r k v

def assocGet {β : Type} (l : List (String × β)) (k : String) : Option β :=
  match l with
  | [] => none
  | (k', v') :: r => if k' = k then some v' else assocGet r k

def vmapSet (l : List (ValueA × ValueA)) (k v : ValueA) :
    List (ValueA × ValueA) :=
  match l with
  | [] => [(k, v)]
  | (k', v') :: r => if veqA k' k then (k, v) :: r else (k', v') :: vmapSet r k v

def vmapGet (l : List (ValueA × ValueA)) (k : ValueA) : Option ValueA :=
  match l with
  | [] => none
  | (k', v') :: r => if veqA k' k then some v' else vmapGet r k

/-- `Environment.GetVariable`: look in this scope, else delegate to the
parent; a miss at the root yields Go's `(nil, false)`.  The recursion is
bounded by the chain depth (parents are always older heap entries). -/
def getVarChainA : Nat → StateA → Nat → String → Option ValueA
  | 0, _, _, _ => none
  | depth + 1, st, envId, name =>
    match st.heap.get? envId with
    | none => none
    | some e =>
      match assocGet e.vars name with
      | some v => some v
      | none =>
        match e.parent with
        | some p => getVarChainA depth st p name
        | none => none

def getVarA (st : StateA) (envId : Nat) (name : String) : Option ValueA :=
  getVarChainA (st.heap.length + 1) st envId name

/-- `Environment.GetFunction`, same chain walk on the function namespace. -/
def getFuncChainA : Nat → StateA → Nat → String → Option ValueA
  | 0, _, _, _ => none
  | depth + 1, st, envId, name =>
    match st.heap.get? envId with
    | none => none
    | some e =>
      match assocGet e.funcs name with
      | some v => some v
      | none =>
        match e.parent with
        | some p => getFuncChainA depth st p name
        | none => none

def getFuncA (st : StateA) (envId : Nat) (name : String) : Option ValueA :=
  getFuncChainA (st.heap.length + 1) st envId name

/-- `env.variables[name] = v` on the receiver environment (assignments always
write the environment they are evaluated in). -/
def setVarRawA (st : StateA) (envId : Nat) (name : String) (v : ValueA) :
    StateA :=
  match st.heap.get? envId with
  | none => st
  | some e => { st with heap := st.heap.set envId { e with vars := assocSet e.vars name v } }

/-- `Environment.SetFunction`. -/
def setFuncA (st : StateA) (envId : Nat) (name : String) (v : ValueA) :
    StateA :=
  match st.heap.get? envId with
  | none => st
  | some e => { st with heap := st.heap.set envId { e with funcs := assocSet e.funcs name v } }

/-- `CreateEnvironment(parent)`: allocate a fresh environment. -/
def pushEnvA (st : StateA) (parent : Option Nat) : Nat × StateA :=
  (st.heap.length, { st with heap := st.heap ++ [⟨[], [], parent⟩] })

def Res.bind {α β : Type} : Res α → (α → Res β) → Res β
  | .ok a, k => k a
  | .fatal m, _ => .fatal m
  | .spin, _ => .spin

/-! ### The binary-operator coercion matrix (variant A) -/

def natToDecString (n : Nat) : String := String.mk (Nat.toDigits 10 n)

/-- `strconv.Itoa`. -/
def intToDecString (i : Int) : String :=
  if i < 0 then "-" ++ natToDecString i.natAbs else natToDecString i.toNat

def padZeros (len : Nat) (s : String) : String :=
  String.mk (List.replicate (len - s.length) '0') ++ s

/-- `strconv.FormatFloat(q, 102, -1, 64)` for the exactly-representable
values the verified programs build: the shortest plain decimal expansion of
the rational (minimal number of fractional digits), which for such values is
exactly Go's shortest round-trip output. -/
def formatFloatGo (q : ℚ) : String :=
  let sign := if q.num < 0 then "-" else ""
  let na := q.num.natAbs
  match (List.range 65).find? (fun k => na * 10 ^ k % q.den = 0) with
  | none => sign ++ "~"
  | some k =>
    let scaled := na * 10 ^ k / q.den
    if k = 0 then sign ++ natToDecString scaled
    else
      sign ++ natToDecString (scaled / 10 ^ k) ++ "." ++
        padZeros k (natToDecString (scaled % 10 ^ k))

/-- `evalIntInt`: Go integer division truncates toward zero and panics on a
zero divisor. -/
def evalIntIntA (l r : Int) (op : String) : Res ValueA :=
  match op with
  | ">" => .ok (.vbool (l > r))
  | ">=" => .ok (.vbool (l ≥ r))
  | "<" => .ok (.vbool (l < r))
  | "<=" => .ok (.vbool (l ≤ r))
  | "==" => .ok (.vbool (l = r))
  | "!=" => .ok (.vbool (l ≠ r))
  | "+" => .ok (.vint (l + r))
  | "-" => .ok (.vint (l - r))
  | "*" => .ok (.vint (l * r))
  | "/" => if r = 0 then .fatal "integer divide by zero" else .ok (.vint (Int.tdiv l r))
  | _ => .ok .vnil

/-- `evalFloatFloat` (float division by zero yields Go's infinity, which the
rational model cannot express; no verified program divides floats by
zero). -/
def evalFloatFloatA (l r : ℚ) (op : String) : Res ValueA :=
  match op with
  | ">" => .ok (.vbool (l > r))
  | ">=" => .ok (.vbool (l ≥ r))
  | "<" => .ok (.vbool (l < r))
  | "<=" => .ok (.vbool (l ≤ r))
  | "==" => .ok (.vbool (l = r))
  | "!=" => .ok (.vbool (l ≠ r))
  | "+" => .ok (.vfloat (ratAdd l r))
  | "-" => .ok (.vfloat (ratSub l r))
  | "*" => .ok (.vfloat (ratMul l r))
  | "/" => .ok (.vfloat (ratDiv l r))
  | _ => .ok .vnil

/-- `evalIntFloat`: the int is promoted to float; the first argument is the
int operand (the caller passes the operands swapped when the float is on the
left, exactly as the source does). -/
def evalIntFloatA (l : Int) (r : ℚ) (op : String) : Res ValueA :=
  evalFloatFloatA (intToRat l) r op

/-- `evalIntString`: the string is `Atoi`-converted and the result stays
int. -/
def evalIntStringA (l : Int) (r : String) (op : String) : Res ValueA :=
  let rv := atoiGo r
  match op with
  | "+" => .ok (.vint (l + rv))
  | "-" => .ok (.vint (l - rv))
  | "*" => .ok (.vint (l * rv))
  | "/" => if rv = 0 then .fatal "integer divide by zero" else .ok (.vint (Int.tdiv l rv))
  | _ => .ok (.vint 0)

/-- `evalFloatString`. -/
def evalFloatStringA (l : ℚ) (r : String) (op : String) : Res ValueA :=
  let rv := parseFloatGo r
  match op with
  | "+" => .ok (.vfloat (ratAdd l rv))
  | "-" => .ok (.vfloat (ratSub l rv))
  | "*" => .ok (.vfloat (ratMul l rv))
  | "/" => .ok (.vfloat (ratDiv l rv))
  | _ => .ok (.vfloat 0)

/-- `evalStringString`: only `+` concatenates; every other operator falls to
the default empty string. -/
def evalStringStringA (l r : String) (op : String) : String :=
  match op with
  | "+" => l ++ r
  | _ => ""

/-- `evalStringInt`: the int is rendered with `strconv.Itoa` and
concatenated; only `+` is handled. -/
def evalStringIntA (l : String) (r : Int) (op : String) : String :=
  match op with
  | "+" => l ++ intToDecString r
  | _ => ""

/-- `evalStringFloat`: the float is rendered with
`strconv.FormatFloat(r, 102, -1, 64)` and concatenated; only `+`. -/
def evalStringFloatA (l : String) (r : ℚ) (op : String) : String :=
  match op with
  | "+" => l ++ formatFloatGo r
  | _ => ""

/-- `evalBoolBool`. -/
def evalBoolBoolA (l r : Bool) (op : String) : Bool :=
  match op with
  | "==" => l = r
  | "!=" => l ≠ r
  | "or" => l || r
  | "and" => l && r
  | _ => false

/-- The operand dispatch of `InfixOp.Evaluate` after both operands are
evaluated: nil operands are absorbed first, then the dynamic-type matrix
applies; unhandled type pairs fall to nil. -/
def infixEvalA (op : String) (l r : ValueA) : Res ValueA :=
  if l.isNilV then .ok r
  else if r.isNilV then .ok l
  else
    match l, r with
    | .vint a, .vint b => evalIntIntA a b op
    | .vint a, .vstr b => evalIntStringA a b op
    | .vint a, .vfloat b => evalIntFloatA a b op
    | .vint _, _ => .ok .vnil
    | .vfloat a, .vint b => evalIntFloatA b a op
    | .vfloat a, .vstr b => evalFloatStringA a b op
    | .vfloat a, .vfloat b => evalFloatFloatA a b op
    | .vfloat _, _ => .ok .vnil
    | .vstr a, .vstr b => .ok (.vstr (evalStringStringA a b op))
    | .vstr a, .vint b => .ok (.vstr (evalStringIntA a b op))
    | .vstr a, .vfloat b => .ok (.vstr (evalStringFloatA a b op))
    | .vstr _, _ => .ok .vnil
    | .vbool a, .vbool b => .ok (.vbool (evalBoolBoolA a b op))
    | .vbool _, _ => .ok .vnil
    | _, _ => .ok .vnil

/-- `evalPrefix`: `!` negates bools, `-` (indeed, any prefix operator)
negates numbers, anything else is nil. -/
def evalPrefixA (op : String) (v : ValueA) : ValueA :=
  match v with
  | .vbool b => if op = "!" then .vbool (!b) else .vnil
  | .vint n => .vint (n * (-1))
  | .vfloat q => .vfloat (ratMul q (intToRat (-1)))
  | _ => .vnil

/-- The early-return test of `BlockStmt.Evaluate`: the statement kinds
`IfStmt` and `ReturnStmt`. -/
def isIfOrReturnA : NodeA → Bool
  | .ifStmt _ _ _ => true
  | .retStmt _ => true
  | _ => false

/-- The `from < to` / descending loops of `RangeExpr.Evaluate`, with fuel
(a zero step in the descending branch loops forever in Go). -/
def upLoopA : Nat → Int → Int → Int → Option (List Int)
  | 0, _, _, _ => none
  | fuel + 1, i, toV, step =>
    if i ≤ toV then (upLoopA fuel (i + step) toV step).map (i :: ·)
    else some []

def downLoopA : Nat → Int → Int → Int → Option (List Int)
  | 0, _, _, _ => none
  | fuel + 1, i, toV, step =>
    if i ≥ toV then (downLoopA fuel (i + step) toV step).map (i :: ·)
    else some []

/-- `RangeExpr.Evaluate` after its operands are evaluated: ascending when
`from < to` with the step used as given (default 1), otherwise descending
with the step's sign normalized to negative. -/
def rangeCoreA (fuel : Nat) (fromV toV : Int) (stepO : Option Int) :
    Option (List Int) :=
  let step := stepO.getD 1
  if fromV < toV then upLoopA fuel fromV toV step
  else downLoopA fuel fromV toV (if step > 0 then -step else step)

/-- `env.SetVariable(*param, args[i])` for each parameter (parameters are
plain identifiers, hence direct writes into the call environment). -/
def bindParamsA (st : StateA) (envId : Nat) : List IdentA → List ValueA →
    StateA
  | [], _ => st
  | _ :: _, [] => st
  | p :: ps, a :: as' => bindParamsA (setVarRawA st envId p.lex.text a) envId ps as'

/-- One level of the mutually recursive functions below; level `n + 1`
calls level `n` through `P`, so the fuel argument of the wrappers
decrements on every call exactly as the Go call tree recurses. -/
structure EvalPackA where
  evalA : NodeA → Nat → StateA → Res (ValueA × StateA)
  setVariableA : NodeA → ValueA → Nat → StateA → Res StateA
  evalBlockA : List NodeA → ValueA → Nat → StateA → Res (ValueA × StateA)
  evalListA : List NodeA → Nat → StateA → Res (List ValueA × StateA)
  evalMapPairsA : List (NodeA × NodeA) → List (ValueA × ValueA) → Nat → StateA → Res (List (ValueA × ValueA) × StateA)
  applyFunctionA : List IdentA → List NodeA → Nat → List ValueA → Bool → StateA → Res (ValueA × StateA)
  forCharsA : List IdentA → List NodeA → Nat → List Char → StateA → Res StateA
  forMapA : List IdentA → List NodeA → Nat → Bool → List (ValueA × ValueA) → StateA → Res StateA
  forArrA : List IdentA → List NodeA → Nat → Bool → Nat → List ValueA → StateA → Res StateA

/-- Level 0: out of fuel everywhere. -/
def EvalPackABase : EvalPackA where
  evalA := fun _ _ _ => .spin
  setVariableA := fun _ _ _ _ => .spin
  evalBlockA := fun _ _ _ _ => .spin
  evalListA := fun _ _ _ => .spin
  evalMapPairsA := fun _ _ _ _ => .spin
  applyFunctionA := fun _ _ _ _ _ _ => .spin
  forCharsA := fun _ _ _ _ _ => .spin
  forMapA := fun _ _ _ _ _ _ => .spin
  forArrA := fun _ _ _ _ _ _ _ => .spin

def EvalPackAStep (n : Nat) (P : EvalPackA) : EvalPackA where
  evalA := fun node env st =>
      match node with
      | .nilNode => .fatal "nil node"
      | .strLit v => .ok (.vstr v, st)
      | .boolLit _ b => .ok (.vbool b, st)
      | .intLit _ n => .ok (.vint n, st)
      | .floatLit _ q => .ok (.vfloat q, st)
      | .retStmt e => P.evalA e env st
      | .identN id =>
        if id.isFunc then .ok ((getFuncA st env id.lex.text).getD .vnil, st)
        else .ok ((getVarA st env id.lex.text).getD .vnil, st)
      | .varAssign name value =>
        (P.evalA value env st).bind fun (v, st1) =>
          (P.setVariableA name v env st1).bind fun st2 => .ok (v, st2)
      | .prefixOpN lex e =>
        (P.evalA e env st).bind fun (v, st1) =>
          .ok (evalPrefixA lex.text v, st1)
      | .infixOpN lex l r =>
        (P.evalA l env st).bind fun (lv, st1) =>
          (P.evalA r env st1).bind fun (rv, st2) =>
            (infixEvalA lex.text lv rv).bind fun v => .ok (v, st2)
      | .ifStmt cond thenB elseB =>
        (P.evalA cond env st).bind fun (c, st1) =>
          match c with
          | .vbool b =>
            if b then P.evalBlockA thenB .vnil env st1
            else
              match elseB with
              | some eb => P.evalBlockA eb .vnil env st1
              | none => .ok (.vnil, st1)
          | _ => .fatal "if condition is not a bool"
      | .arrayLit elems =>
        (P.evalListA elems env st).bind fun (vs, st1) =>
          .ok (.varr vs, st1)
      | .mapLit pairs =>
        (P.evalMapPairsA pairs [] env st).bind fun (m, st1) =>
          .ok (.vmap m, st1)
      | .indexExpr coll idx =>
        (P.evalA idx env st).bind fun (iv, st1) =>
          (P.evalA coll env st1).bind fun (cv, st2) =>
            match cv with
            | .vmap m => .ok ((vmapGet m iv).getD .vnil, st2)
            | .varr elems =>
              match iv with
              | .vint n =>
                if h : 0 ≤ n ∧ n.toNat < elems.length then
                  .ok (elems.get ⟨n.toNat, h.2⟩, st2)
                else .fatal "index out of range"
              | _ => .fatal "array index is not an int"
            | _ => .fatal "indexing a non-collection"
      | .printStmt args _ =>
        (P.evalListA args env st).bind fun (vs, st1) =>
          .ok (.vnil, { st1 with out := st1.out ++ [vs] })
      | .funcLit name params body =>
        let fv := ValueA.vfn name params body env
        .ok (fv, setFuncA st env name fv)
      | .callExpr fnN args =>
        (P.evalA fnN env st).bind fun (fnv, st1) =>
          match fnv with
          | .vfn _ params body fenv =>
            (P.evalListA args env st1).bind fun (argvs, st2) =>
              P.applyFunctionA params body fenv argvs true st2
          | _ => .fatal "calling a non-function"
      | .forStmt key val target body =>
        (P.evalA target env st).bind fun (tv, st1) =>
          let params := key :: (match val with | some v => [v] | none => [])
          match tv with
          | .vstr s =>
            (P.forCharsA params body env s.data st1).bind fun st2 =>
              .ok (.vnil, st2)
          | .vmap m =>
            (P.forMapA params body env val.isSome m st1).bind fun st2 =>
              .ok (.vnil, st2)
          | .varr elems =>
            (P.forArrA params body env val.isSome 0 elems st1).bind fun st2 =>
              .ok (.vnil, st2)
          | _ => .ok (.vnil, st1)
      | .rangeExpr fromN toN stepN =>
        (P.evalA fromN env st).bind fun (fv, st1) =>
          match fv with
          | .vint fromV =>
            (P.evalA toN env st1).bind fun (tv, st2) =>
              match tv with
              | .vint toV =>
                match stepN with
                | none =>
                  match rangeCoreA n fromV toV none with
                  | none => .spin
                  | some l => .ok (.varr (l.map .vint), st2)
                | some sN =>
                  (P.evalA sN env st2).bind fun (sv, st3) =>
                    match sv with
                    | .vint stepV =>
                      match rangeCoreA n fromV toV (some stepV) with
                      | none => .spin
                      | some l => .ok (.varr (l.map .vint), st3)
                    | _ => .fatal "range step is not an int"
              | _ => .fatal "range bound is not an int"
          | _ => .fatal "range bound is not an int"
      | .swapStmt a b =>
        (P.evalA a env st).bind fun (t, st1) =>
          (P.evalA b env st1).bind fun (bv, st2) =>
            (P.setVariableA a bv env st2).bind fun st3 =>
              (P.setVariableA b t env st3).bind fun st4 => .ok (.vnil, st4)
      | .importStmt _ => .fatal "import: host file system outside the model"
      | .inputStmt _ => .fatal "input: host console outside the model"
      | .lenExpr t =>
        (P.evalA t env st).bind fun (v, st1) =>
          match v with
          | .vstr s => .ok (.vint s.utf8ByteSize, st1)
          | .vmap m => .ok (.vint m.length, st1)
          | .varr elems => .ok (.vint elems.length, st1)
          | _ => .ok (.vnil, st1)

  setVariableA := fun name v env st =>
      match name with
      | .identN id => .ok (setVarRawA st env id.lex.text v)
      | .indexExpr coll idx =>
        match coll with
        | .identN cid =>
          (P.evalA idx env st).bind fun (iv, st1) =>
            let t := (getVarA st1 env cid.lex.text).getD .vnil
            match t with
            | .varr elems =>
              match iv with
              | .vint n =>
                if 0 ≤ n ∧ n.toNat < elems.length then
                  .ok (setVarRawA st1 env cid.lex.text (.varr (elems.set n.toNat v)))
                else .fatal "index out of range"
              | _ => .fatal "array index is not an int"
            | .vmap m => .ok (setVarRawA st1 env cid.lex.text (.vmap (vmapSet m iv v)))
            | _ => .ok (setVarRawA st1 env cid.lex.text t)
        | _ => .fatal "index-assignment target is not an identifier"
      | _ => .ok st

  evalBlockA := fun a1 a2 a3 a4 =>
    match a1, a2, a3, a4 with
    | [], result, _, st => .ok (result, st)
    | stm :: rest, result, env, st => if stm.isNil then P.evalBlockA rest result env st
        else
          (P.evalA stm env st).bind fun (r, st1) =>
            if ¬r.isNilV ∧ isIfOrReturnA stm then .ok (r, st1)
            else P.evalBlockA rest r env st1

  evalListA := fun a1 a2 a3 =>
    match a1, a2, a3 with
    | [], _, st => .ok ([], st)
    | e :: rest, env, st => (P.evalA e env st).bind fun (v, st1) =>
          (P.evalListA rest env st1).bind fun (vs, st2) => .ok (v :: vs, st2)

  evalMapPairsA := fun a1 a2 a3 a4 =>
    match a1, a2, a3, a4 with
    | [], acc, _, st => .ok (acc, st)
    | (kN, vN) :: rest, acc, env, st => (P.evalA kN env st).bind fun (k, st1) =>
          (P.evalA vN env st1).bind fun (v, st2) =>
            P.evalMapPairsA rest (vmapSet acc k v) env st2

  applyFunctionA := fun params body fenv args fresh st =>
      let (envId, st1) := if fresh then pushEnvA st (some fenv) else (fenv, st)
      if args.length < params.length then .fatal "missing call argument"
      else
        let st2 := bindParamsA st1 envId params args
        P.evalBlockA body .vnil envId st2

  forCharsA := fun a1 a2 a3 a4 a5 =>
    match a1, a2, a3, a4, a5 with
    | _, _, _, [], st => .ok st
    | params, body, env, c :: cs, st => (P.applyFunctionA params body env [.vstr (String.mk [c])] false st).bind
          fun (_, st1) => P.forCharsA params body env cs st1

  forMapA := fun a1 a2 a3 a4 a5 a6 =>
    match a1, a2, a3, a4, a5, a6 with
    | _, _, _, _, [], st => .ok st
    | params, body, env, twoVar, (k, v) :: rest, st => let args := if twoVar then [k, v] else [k]
        (P.applyFunctionA params body env args false st).bind fun (_, st1) =>
          P.forMapA params body env twoVar rest st1

  forArrA := fun a1 a2 a3 a4 a5 a6 a7 =>
    match a1, a2, a3, a4, a5, a6, a7 with
    | _, _, _, _, _, [], st => .ok st
    | params, body, env, twoVar, i, v :: rest, st => let args := if twoVar then [.vint i, v] else [v]
        (P.applyFunctionA params body env args false st).bind fun (_, st1) =>
          P.forArrA params body env twoVar (i + 1) rest st1


def EvalPackAAt : Nat → EvalPackA := fun fuel =>
  Nat.rec EvalPackABase (fun n ih => EvalPackAStep n ih) fuel

/-- `Node.Evaluate` of the `Environment` evaluator. -/
def evalA (fuel : Nat) (x1 : NodeA) (x2 : Nat) (x3 : StateA) : Res (ValueA × StateA) :=
  (EvalPackAAt fuel).evalA x1 x2 x3

/-- `Environment.SetVariable`: a plain identifier writes the current
environment; an index target reads the named collection, updates the element
and writes the collection back; other target kinds are silently ignored
(the type switch has no default case). -/
def setVariableA (fuel : Nat) (x1 : NodeA) (x2 : ValueA) (x3 : Nat) (x4 : StateA) : Res StateA :=
  (EvalPackAAt fuel).setVariableA x1 x2 x3 x4

/-- `BlockStmt.Evaluate` with its running `result`: nil statements are
skipped, and the block returns early exactly when a statement of kind
`IfStmt`/`ReturnStmt` produced a non-nil value. -/
def evalBlockA (fuel : Nat) (x1 : List NodeA) (x2 : ValueA) (x3 : Nat) (x4 : StateA) : Res (ValueA × StateA) :=
  (EvalPackAAt fuel).evalBlockA x1 x2 x3 x4

/-- `evalExpressions`: left-to-right evaluation of a node list. -/
def evalListA (fuel : Nat) (x1 : List NodeA) (x2 : Nat) (x3 : StateA) : Res (List ValueA × StateA) :=
  (EvalPackAAt fuel).evalListA x1 x2 x3

/-- `MapLiteral.Evaluate`: evaluate keys and values, inserting with map
semantics. -/
def evalMapPairsA (fuel : Nat) (x1 : List (NodeA × NodeA)) (x2 : List (ValueA × ValueA)) (x3 : Nat) (x4 : StateA) : Res (List (ValueA × ValueA) × StateA) :=
  (EvalPackAAt fuel).evalMapPairsA x1 x2 x3 x4

/-- `applyFunction` / `argsToEnvironment`: optionally create a fresh child of
the captured environment, bind parameters positionally (`args[i]` panics when
there are fewer arguments than parameters), and evaluate the body there. -/
def applyFunctionA (fuel : Nat) (x1 : List IdentA) (x2 : List NodeA) (x3 : Nat) (x4 : List ValueA) (x5 : Bool) (x6 : StateA) : Res (ValueA × StateA) :=
  (EvalPackAAt fuel).applyFunctionA x1 x2 x3 x4 x5 x6

/-- The `for ... range` body applications over a string's characters. -/
def forCharsA (fuel : Nat) (x1 : List IdentA) (x2 : List NodeA) (x3 : Nat) (x4 : List Char) (x5 : StateA) : Res StateA :=
  (EvalPackAAt fuel).forCharsA x1 x2 x3 x4 x5

/-- The `for ... range` body applications over a map's entries. -/
def forMapA (fuel : Nat) (x1 : List IdentA) (x2 : List NodeA) (x3 : Nat) (x4 : Bool) (x5 : List (ValueA × ValueA)) (x6 : StateA) : Res StateA :=
  (EvalPackAAt fuel).forMapA x1 x2 x3 x4 x5 x6

/-- The `for ... range` body applications over an array (one variable binds
the value, two bind index and value). -/
def forArrA (fuel : Nat) (x1 : List IdentA) (x2 : List NodeA) (x3 : Nat) (x4 : Bool) (x5 : Nat) (x6 : List ValueA) (x7 : StateA) : Res StateA :=
  (EvalPackAAt fuel).forArrA x1 x2 x3 x4 x5 x6 x7


/-- `EvaluateNodes`: evaluate the top-level nodes in order against one
environment, keeping the last value. -/
def evalNodesA : Nat → List NodeA → ValueA → Nat → StateA →
    Res (ValueA × StateA)
  | 0, _, _, _, _ => .spin
  | _ + 1, [], result, _, st => .ok (result, st)
  | fuel + 1, n :: rest, _, env, st =>
    (evalA fuel n env st).bind fun (v, st1) => evalNodesA fuel rest v env st1

/-- `main` of the variant-A binary: scan, parse, evaluate against a fresh
root environment; the result is the last top-level value. -/
def runProgramA (fuel : Nat) (src : String) : Res (ValueA × StateA) :=
  match createScannerToks fuel src with
  | .fatal m => .fatal m
  | .spin => .spin
  | .ok toks =>
    match parseProgramA fuel toks with
    | none => .spin
    | some nodes => evalNodesA fuel nodes .vnil 0 emptyStateA

def runValueA (fuel : Nat) (src : String) : Res ValueA :=
  (runProgramA fuel src).bind fun (v, _) => .ok v

/-! ### Variant B: `Parser` and the `Scope`-based evaluator

`TokenType` is the closed set of token kinds the `Parser` dispatches on (its
producer, `NewLexer`, is not part of the sources); `zeroT` is the zero value
`TokenType("")` obtained by receiving from a drained closed channel, which
`Parser.advance` does not guard against. -/

inductive TokenType where
  | eqT | eqeqT | neqT | lesserT | greaterT | leqT | geqT
  | plusT | minusT | slashT | starT
  | lparentT | rparentT | lbracketT | rbracketT | lcurlyT | rcurlyT
  | commaT | colonT | dotdotT
  | identT | stringT | intT | floatT | trueT | falseT
  | ifT | elseT | fnT | printT | printlnT | returnT | forT
  | swapT | inputT | lenT | importT | orT | andT | notT | eofT
  | zeroT
  deriving DecidableEq, Repr

structure Token where
  ttype : TokenType
  value : String
  deriving DecidableEq, Repr

/-- Printable token-kind names used in `log.Fatalf` diagnostics. -/
def TokenType.name : TokenType → String
  | .eofT => "EOF"
  | .rcurlyT => "RCURLY"
  | .rparentT => "RPARENT"
  | .rbracketT => "RBRACKET"
  | .lcurlyT => "LCURLY"
  | .lparentT => "LPARENT"
  | .commaT => "COMMA"
  | .colonT => "COLON"
  | .forT => "FOR"
  | _ => "TOKEN"

inductive NodeB where
  | nilB
  | strN (v : String)
  | identB (name : String)
  | intN (v : Int)
  | floatN (v : ℚ)
  | boolN (v : Bool)
  | retN (e : NodeB)
  | varN (name : NodeB) (value : NodeB)
  | unaryN (op : String) (right : NodeB)
  | binN (op : String) (l : NodeB) (r : NodeB)
  | ifN (cond : NodeB) (trueB : List NodeB) (elseB : Option (List NodeB))
  | forN (key : String) (val : Option String) (subject : NodeB)
      (body : List NodeB)
  | rangeN (frm : NodeB) (toN : NodeB) (step : Option NodeB)
  | printN (args : List NodeB) (newline : Bool)
  | arrN (elems : List NodeB)
  | mapN (pairs : List (NodeB × NodeB))
  | idxN (subject : NodeB) (index : NodeB)
  | fnN (name : String) (params : List String) (body : List NodeB)
      (fid : Nat)
  | callN (fn : NodeB) (args : List NodeB)
  | swapN (l : NodeB) (r : NodeB)
  | importN (e : NodeB)
  | inputN (e : NodeB)
  | lenN (e : NodeB)
  deriving Repr

def NodeB.isNilB : NodeB → Bool
  | .nilB => true
  | _ => false

def zeroTok : Token := ⟨.zeroT, ""⟩

/-- Parser state.  `fnCount` is the number of `FunctionNode`
allocations performed so far: each `FunctionNode` is a single heap object
shared by every later reference to it, so the allocation index stands for
the node's pointer identity (`fid` on `NodeB.fnN`). -/
structure PSB where
  cur : Token
  peek : Token
  rest : List Token
  fnCount : Nat
  deriving Repr

/-- `Parser.advance`: the receive from a drained closed channel yields the
zero token (no `ok` check in this variant). -/
def advanceB (s : PSB) : PSB :=
  match s.rest with
  | [] => ⟨s.peek, zeroTok, [], s.fnCount⟩
  | t :: r => ⟨s.peek, t, r, s.fnCount⟩

def initPSB (toks : List Token) : PSB :=
  match toks with
  | [] => ⟨zeroTok, zeroTok, [], 0⟩
  | [a] => ⟨a, zeroTok, [], 0⟩
  | a :: b :: r => ⟨a, b, r, 0⟩

/-- The `precedence` table of variant B (`peekPrecedence` defaults to
`LowestPriority = 1`). -/
def getPrecedenceB (k : TokenType) : Nat :=
  match k with
  | .eqT | .eqeqT | .neqT => 2
  | .lesserT | .greaterT | .leqT | .geqT => 3
  | .plusT | .minusT => 4
  | .slashT | .starT => 5
  | .lparentT => 7
  | .lbracketT => 8
  | .dotdotT => 9
  | _ => 1

/-- Direct read of `precedence[t]` inside `parseBinaryOp` (a missing entry
would be Go's zero value 0, but only registered kinds reach it). -/
def precedenceMapB (k : TokenType) : Nat :=
  match k with
  | .eqT | .eqeqT | .neqT => 2
  | .lesserT | .greaterT | .leqT | .geqT => 3
  | .plusT | .minusT => 4
  | .slashT | .starT => 5
  | .lparentT => 7
  | .lbracketT => 8
  | .dotdotT => 9
  | _ => 0

def hasPrefixParseletB (k : TokenType) : Bool :=
  match k with
  | .identT | .stringT | .intT | .floatT | .minusT | .notT | .trueT
  | .falseT | .lparentT | .ifT | .fnT | .printT | .printlnT | .lbracketT
  | .lcurlyT | .forT | .returnT | .swapT | .inputT | .lenT | .importT => true
  | _ => false

def hasInfixParseletB (k : TokenType) : Bool :=
  match k with
  | .orT | .andT | .plusT | .minusT | .starT | .slashT | .eqeqT | .neqT
  | .greaterT | .geqT | .lesserT | .leqT | .lparentT | .lbracketT
  | .dotdotT | .eqT => true
  | _ => false

/-- `Parser.expect`: a mismatch is `log.Fatalf`, otherwise advance. -/
def expectB (t : TokenType) (s : PSB) : Res PSB :=
  if s.cur.ttype = t then .ok (advanceB s)
  else .fatal ("Expected " ++ t.name ++ ", got " ++ s.cur.ttype.name)

/-- `strconv.Atoi` with the error checked (`parseInt` aborts on a bad
literal). -/
def atoiGoStrict (s : String) : Option Int :=
  let core (ds : List Char) (sign : Int) : Option Int :=
    if ds ≠ [] ∧ ds.all (fun c => c.isDigit) then some (sign * digitsToNat ds)
    else none
  match s.data with
  | '-' :: ds => core ds (-1)
  | '+' :: ds => core ds 1
  | ds => core ds 1

/-- `strconv.ParseFloat` with the error checked (plain decimal forms). -/
def parseFloatGoStrict (s : String) : Option ℚ :=
  let core (ds : List Char) (sign : Int) : Option ℚ :=
    match ds.splitOn '.' with
    | [ip] =>
      if ip ≠ [] ∧ ip.all (fun c => c.isDigit) then
        some (mkRat (sign * digitsToNat ip) 1)
      else none
    | [ip, fp] =>
      if (ip ≠ [] ∨ fp ≠ []) ∧ ip.all (fun c => c.isDigit) ∧
          fp.all (fun c => c.isDigit) then
        some (mkRat (sign * (digitsToNat ip * 10 ^ fp.length + digitsToNat fp))
          (10 ^ fp.length))
      else none
    | _ => none
  match s.data with
  | '-' :: ds => core ds (-1)
  | '+' :: ds => core ds 1
  | ds => core ds 1

/-- One level of the mutually recursive functions below; level `n + 1`
calls level `n` through `P`, so the fuel argument of the wrappers
decrements on every call exactly as the Go call tree recurses. -/
structure ParsePackB where
  parseExpressionB : Nat → PSB → Res (NodeB × PSB)
  prefixDispatchB : PSB → Res (NodeB × PSB)
  parseExprLoopB : Nat → NodeB → PSB → Res (NodeB × PSB)
  infixDispatchB : NodeB → PSB → Res (NodeB × PSB)
  parseReturnB : PSB → Res (NodeB × PSB)
  parseVariableB : NodeB → PSB → Res (NodeB × PSB)
  parseUnaryOpB : PSB → Res (NodeB × PSB)
  parseBinaryOpB : NodeB → PSB → Res (NodeB × PSB)
  parseBlockLoopB : List NodeB → PSB → Res (List NodeB × PSB)
  parseBlockB : PSB → Res (List NodeB × PSB)
  parseIfB : PSB → Res (NodeB × PSB)
  parseForB : PSB → Res (NodeB × PSB)
  parseRangeB : NodeB → PSB → Res (NodeB × PSB)
  parsePrintB : PSB → Res (NodeB × PSB)
  parseArgsB : TokenType → List NodeB → PSB → Res (List NodeB × PSB)
  parseArrayB : PSB → Res (NodeB × PSB)
  parseMapB : PSB → Res (NodeB × PSB)
  parseMapLoopB : List (NodeB × NodeB) → PSB → Res (List (NodeB × NodeB) × PSB)
  parseArrayIndexB : NodeB → PSB → Res (NodeB × PSB)
  parseFunctionB : PSB → Res (NodeB × PSB)
  parseParamsB : List String → PSB → Res (List String × PSB)
  parseFunctionCallB : NodeB → PSB → Res (NodeB × PSB)
  parseSwapB : PSB → Res (NodeB × PSB)
  parseImportB : PSB → Res (NodeB × PSB)
  parseInputB : PSB → Res (NodeB × PSB)
  parseLenB : PSB → Res (NodeB × PSB)
  parseGroupedB : PSB → Res (NodeB × PSB)

/-- Level 0: out of fuel everywhere. -/
def ParsePackBBase : ParsePackB where
  parseExpressionB := fun _ _ => .spin
  prefixDispatchB := fun _ => .spin
  parseExprLoopB := fun _ _ _ => .spin
  infixDispatchB := fun _ _ => .spin
  parseReturnB := fun _ => .spin
  parseVariableB := fun _ _ => .spin
  parseUnaryOpB := fun _ => .spin
  parseBinaryOpB := fun _ _ => .spin
  parseBlockLoopB := fun _ _ => .spin
  parseBlockB := fun _ => .spin
  parseIfB := fun _ => .spin
  parseForB := fun _ => .spin
  parseRangeB := fun _ _ => .spin
  parsePrintB := fun _ => .spin
  parseArgsB := fun _ _ _ => .spin
  parseArrayB := fun _ => .spin
  parseMapB := fun _ => .spin
  parseMapLoopB := fun _ _ => .spin
  parseArrayIndexB := fun _ _ => .spin
  parseFunctionB := fun _ => .spin
  parseParamsB := fun _ _ => .spin
  parseFunctionCallB := fun _ _ => .spin
  parseSwapB := fun _ => .spin
  parseImportB := fun _ => .spin
  parseInputB := fun _ => .spin
  parseLenB := fun _ => .spin
  parseGroupedB := fun _ => .spin

def ParsePackBStep (_ : Nat) (P : ParsePackB) : ParsePackB where
  parseExpressionB := fun prec s =>
      if hasPrefixParseletB s.cur.ttype then
        (P.prefixDispatchB s).bind fun (left, s1) =>
          P.parseExprLoopB prec left s1
      else .ok (.nilB, s)

  prefixDispatchB := fun s =>
      match s.cur.ttype with
      | .identT => .ok (.identB s.cur.value, advanceB s)
      | .stringT => .ok (.strN s.cur.value, advanceB s)
      | .intT =>
        match atoiGoStrict s.cur.value with
        | none => .fatal ("Invalid integer: " ++ s.cur.value)
        | some v => .ok (.intN v, advanceB s)
      | .floatT =>
        match parseFloatGoStrict s.cur.value with
        | none => .fatal ("Invalid float: " ++ s.cur.value)
        | some v => .ok (.floatN v, advanceB s)
      | .trueT => .ok (.boolN true, advanceB s)
      | .falseT => .ok (.boolN false, advanceB s)
      | .minusT => P.parseUnaryOpB s
      | .notT => P.parseUnaryOpB s
      | .lparentT => P.parseGroupedB s
      | .ifT => P.parseIfB s
      | .fnT => P.parseFunctionB s
      | .printT => P.parsePrintB s
      | .printlnT => P.parsePrintB s
      | .lbracketT => P.parseArrayB s
      | .lcurlyT => P.parseMapB s
      | .forT => P.parseForB s
      | .returnT => P.parseReturnB s
      | .swapT => P.parseSwapB s
      | .inputT => P.parseInputB s
      | .lenT => P.parseLenB s
      | .importT => P.parseImportB s
      | _ => .ok (.nilB, s)

  parseExprLoopB := fun prec left s =>
      if getPrecedenceB s.peek.ttype > prec then
        if hasInfixParseletB s.peek.ttype then
          (P.infixDispatchB left (advanceB s)).bind fun (left2, s2) =>
            P.parseExprLoopB prec left2 s2
        else .ok (left, s)
      else .ok (left, s)

  infixDispatchB := fun left s =>
      match s.cur.ttype with
      | .lparentT => P.parseFunctionCallB left s
      | .lbracketT => P.parseArrayIndexB left s
      | .dotdotT => P.parseRangeB left s
      | .eqT => P.parseVariableB left s
      | _ => P.parseBinaryOpB left s

  parseReturnB := fun s =>
      (P.parseExpressionB 1 (advanceB s)).bind fun (e, s1) =>
        .ok (.retN e, s1)

  parseVariableB := fun left s =>
      (P.parseExpressionB 1 (advanceB s)).bind fun (v, s1) =>
        .ok (.varN left v, s1)

  parseUnaryOpB := fun s =>
      let op := s.cur.value
      (P.parseExpressionB 6 (advanceB s)).bind fun (e, s1) =>
        .ok (.unaryN op e, s1)

  parseBinaryOpB := fun left s =>
      let op := s.cur.value
      let priority := precedenceMapB s.cur.ttype
      (P.parseExpressionB priority (advanceB s)).bind fun (right, s1) =>
        .ok (.binN op left right, s1)

  parseBlockLoopB := fun acc s =>
      if s.cur.ttype ≠ .rcurlyT ∧ s.cur.ttype ≠ .eofT then
        (P.parseExpressionB 1 s).bind fun (stmt, s1) =>
          let acc2 := if stmt.isNilB then acc else acc ++ [stmt]
          P.parseBlockLoopB acc2 (advanceB s1)
      else .ok (acc, s)

  parseBlockB := fun s =>
      (expectB .lcurlyT s).bind fun s1 =>
        (P.parseBlockLoopB [] s1).bind fun (stmts, s2) =>
          (expectB .rcurlyT s2).bind fun s3 => .ok (stmts, s3)

  parseIfB := fun s =>
      (P.parseExpressionB 1 (advanceB s)).bind fun (cond, s1) =>
        (P.parseBlockB (advanceB s1)).bind fun (trueB, s2) =>
          if s2.cur.ttype = .elseT then
            (P.parseBlockB (advanceB s2)).bind fun (elseB, s3) =>
              .ok (.ifN cond trueB (some elseB), s3)
          else .ok (.ifN cond trueB none, s2)

  parseForB := fun s =>
      let s1 := advanceB s
      let key := s1.cur.value
      let s2 := advanceB s1
      let (val, s3) :=
        if s2.cur.ttype = .commaT then
          let s2' := advanceB s2
          (some s2'.cur.value, advanceB s2')
        else (none, s2)
      (expectB .forT s3).bind fun s4 =>
        (P.parseExpressionB 1 (advanceB s4)).bind fun (subject, s5) =>
          (P.parseBlockB (advanceB s5)).bind fun (body, s6) =>
            .ok (.forN key val subject body, s6)

  parseRangeB := fun left s =>
      (P.parseExpressionB 1 (advanceB s)).bind fun (toN, s1) =>
        if s1.cur.ttype = .colonT then
          (P.parseExpressionB 1 (advanceB s1)).bind fun (step, s2) =>
            .ok (.rangeN left toN (some step), s2)
        else .ok (.rangeN left toN none, s1)

  parsePrintB := fun s =>
      let newline := s.cur.ttype = .printlnT
      (expectB .lparentT (advanceB s)).bind fun s1 =>
        (P.parseArgsB .rparentT [] s1).bind fun (args, s2) =>
          .ok (.printN args newline, s2)

  parseArgsB := fun endT acc s =>
      if s.cur.ttype ≠ endT then
        (if acc.length > 0 then expectB .commaT s else .ok s).bind fun s1 =>
          (P.parseExpressionB 1 (advanceB s1)).bind fun (e, s2) =>
            P.parseArgsB endT (acc ++ [e]) s2
      else .ok (acc, advanceB s)

  parseArrayB := fun s =>
      (P.parseArgsB .rbracketT [] (advanceB s)).bind fun (elems, s1) =>
        .ok (.arrN elems, s1)

  parseMapB := fun s =>
      (P.parseMapLoopB [] (advanceB s)).bind fun (pairs, s1) =>
        .ok (.mapN pairs, advanceB s1)

  parseMapLoopB := fun acc s =>
      if s.cur.ttype ≠ .rcurlyT then
        (P.parseExpressionB 1 s).bind fun (key, s1) =>
          (expectB .colonT s1).bind fun s2 =>
            (P.parseExpressionB 1 (advanceB s2)).bind fun (value, s3) =>
              let acc2 := acc ++ [(key, value)]
              let s4 := if s3.cur.ttype = .commaT then advanceB s3 else s3
              P.parseMapLoopB acc2 s4
      else .ok (acc, s)

  parseArrayIndexB := fun left s =>
      (P.parseExpressionB 1 (advanceB s)).bind fun (index, s1) =>
        (expectB .rbracketT s1).bind fun s2 =>
          .ok (.idxN left index, s2)

  parseFunctionB := fun s =>
      let s1 := advanceB s
      let name := s1.cur.value
      (expectB .lparentT (advanceB s1)).bind fun s2 =>
        (P.parseParamsB [] s2).bind fun (params, s3) =>
          (P.parseBlockB (advanceB s3)).bind fun (body, s4) =>
            .ok (.fnN name params body s4.fnCount,
              { s4 with fnCount := s4.fnCount + 1 })

  parseParamsB := fun acc s =>
      if s.cur.ttype ≠ .rparentT then
        (if acc.length > 0 then expectB .commaT s else .ok s).bind fun s1 =>
          let s2 := advanceB s1
          if s2.cur.ttype ≠ .identT then
            .fatal ("Expected identifier, got " ++ s2.cur.ttype.name)
          else P.parseParamsB (acc ++ [s2.cur.value]) s2
      else .ok (acc, s)

  parseFunctionCallB := fun left s =>
      (P.parseArgsB .rparentT [] (advanceB s)).bind fun (args, s1) =>
        .ok (.callN left args, s1)

  parseSwapB := fun s =>
      (expectB .lparentT (advanceB s)).bind fun s1 =>
        (P.parseExpressionB 1 s1).bind fun (l, s2) =>
          (expectB .commaT s2).bind fun s3 =>
            (P.parseExpressionB 1 (advanceB s3)).bind fun (r, s4) =>
              (expectB .rparentT s4).bind fun s5 =>
                .ok (.swapN l r, s5)

  parseImportB := fun s =>
      (expectB .lparentT (advanceB s)).bind fun s1 =>
        (P.parseExpressionB 1 s1).bind fun (e, s2) =>
          (expectB .rparentT s2).bind fun s3 => .ok (.importN e, s3)

  parseInputB := fun s =>
      (expectB .lparentT (advanceB s)).bind fun s1 =>
        (P.parseExpressionB 1 s1).bind fun (e, s2) =>
          (expectB .rparentT s2).bind fun s3 => .ok (.inputN e, s3)

  parseLenB := fun s =>
      (expectB .lparentT (advanceB s)).bind fun s1 =>
        (P.parseExpressionB 1 s1).bind fun (e, s2) =>
          (expectB .rparentT s2).bind fun s3 => .ok (.lenN e, s3)

  parseGroupedB := fun s =>
      (P.parseExpressionB 1 (advanceB s)).bind fun (e, s1) =>
        (expectB .rparentT s1).bind fun s2 => .ok (e, s2)


def ParsePackBAt : Nat → ParsePackB := fun fuel =>
  Nat.rec ParsePackBBase (fun n ih => ParsePackBStep n ih) fuel

/-- `Parser.parseExpression`: a token without a prefix parselet yields nil
(state untouched); otherwise fold infix parselets while the peek token binds
strictly tighter. -/
def parseExpressionB (fuel : Nat) (x1 : Nat) (x2 : PSB) : Res (NodeB × PSB) :=
  (ParsePackBAt fuel).parseExpressionB x1 x2

def prefixDispatchB (fuel : Nat) (x1 : PSB) : Res (NodeB × PSB) :=
  (ParsePackBAt fuel).prefixDispatchB x1

def parseExprLoopB (fuel : Nat) (x1 : Nat) (x2 : NodeB) (x3 : PSB) : Res (NodeB × PSB) :=
  (ParsePackBAt fuel).parseExprLoopB x1 x2 x3

def infixDispatchB (fuel : Nat) (x1 : NodeB) (x2 : PSB) : Res (NodeB × PSB) :=
  (ParsePackBAt fuel).infixDispatchB x1 x2

/-- `Parser.parseReturn`. -/
def parseReturnB (fuel : Nat) (x1 : PSB) : Res (NodeB × PSB) :=
  (ParsePackBAt fuel).parseReturnB x1

/-- `Parser.parseVariable`. -/
def parseVariableB (fuel : Nat) (x1 : NodeB) (x2 : PSB) : Res (NodeB × PSB) :=
  (ParsePackBAt fuel).parseVariableB x1 x2

/-- `Parser.parseUnaryOp` (`Prefix = 6`). -/
def parseUnaryOpB (fuel : Nat) (x1 : PSB) : Res (NodeB × PSB) :=
  (ParsePackBAt fuel).parseUnaryOpB x1

/-- `Parser.parseBinaryOp`. -/
def parseBinaryOpB (fuel : Nat) (x1 : NodeB) (x2 : PSB) : Res (NodeB × PSB) :=
  (ParsePackBAt fuel).parseBinaryOpB x1 x2

/-- The statement loop of `Parser.parseBlock` (between the two `expect`
calls): parse until `}` or EOF, dropping nil statements. -/
def parseBlockLoopB (fuel : Nat) (x1 : List NodeB) (x2 : PSB) : Res (List NodeB × PSB) :=
  (ParsePackBAt fuel).parseBlockLoopB x1 x2

/-- `Parser.parseBlock`: `expect(LCURLY)`, the statement loop, then
`expect(RCURLY)` — an unmatched `{` therefore dies on the final expect at
EOF. -/
def parseBlockB (fuel : Nat) (x1 : PSB) : Res (List NodeB × PSB) :=
  (ParsePackBAt fuel).parseBlockB x1

/-- `Parser.parseIf`. -/
def parseIfB (fuel : Nat) (x1 : PSB) : Res (NodeB × PSB) :=
  (ParsePackBAt fuel).parseIfB x1

/-- `Parser.parseFor` (note the required second `for` keyword between the
bound names and the iterable, enforced with `expect(FOR)`). -/
def parseForB (fuel : Nat) (x1 : PSB) : Res (NodeB × PSB) :=
  (ParsePackBAt fuel).parseForB x1

/-- `Parser.parseRange`. -/
def parseRangeB (fuel : Nat) (x1 : NodeB) (x2 : PSB) : Res (NodeB × PSB) :=
  (ParsePackBAt fuel).parseRangeB x1 x2

/-- `Parser.parsePrint`. -/
def parsePrintB (fuel : Nat) (x1 : PSB) : Res (NodeB × PSB) :=
  (ParsePackBAt fuel).parsePrintB x1

/-- `Parser.parseArgs`: elements until the terminator, a comma expected
before every element after the first. -/
def parseArgsB (fuel : Nat) (x1 : TokenType) (x2 : List NodeB) (x3 : PSB) : Res (List NodeB × PSB) :=
  (ParsePackBAt fuel).parseArgsB x1 x2 x3

/-- `Parser.parseArray`. -/
def parseArrayB (fuel : Nat) (x1 : PSB) : Res (NodeB × PSB) :=
  (ParsePackBAt fuel).parseArrayB x1

/-- `Parser.parseMap`. -/
def parseMapB (fuel : Nat) (x1 : PSB) : Res (NodeB × PSB) :=
  (ParsePackBAt fuel).parseMapB x1

def parseMapLoopB (fuel : Nat) (x1 : List (NodeB × NodeB)) (x2 : PSB) : Res (List (NodeB × NodeB) × PSB) :=
  (ParsePackBAt fuel).parseMapLoopB x1 x2

/-- `Parser.parseArrayIndex`. -/
def parseArrayIndexB (fuel : Nat) (x1 : NodeB) (x2 : PSB) : Res (NodeB × PSB) :=
  (ParsePackBAt fuel).parseArrayIndexB x1 x2

/-- `Parser.parseFunction`. -/
def parseFunctionB (fuel : Nat) (x1 : PSB) : Res (NodeB × PSB) :=
  (ParsePackBAt fuel).parseFunctionB x1

/-- `Parser.parseParams` (no advance past the closing parenthesis; the
caller does that). -/
def parseParamsB (fuel : Nat) (x1 : List String) (x2 : PSB) : Res (List String × PSB) :=
  (ParsePackBAt fuel).parseParamsB x1 x2

/-- `Parser.parseFunctionCall`. -/
def parseFunctionCallB (fuel : Nat) (x1 : NodeB) (x2 : PSB) : Res (NodeB × PSB) :=
  (ParsePackBAt fuel).parseFunctionCallB x1 x2

/-- `Parser.parseSwap`. -/
def parseSwapB (fuel : Nat) (x1 : PSB) : Res (NodeB × PSB) :=
  (ParsePackBAt fuel).parseSwapB x1

/-- `Parser.parseImport`. -/
def parseImportB (fuel : Nat) (x1 : PSB) : Res (NodeB × PSB) :=
  (ParsePackBAt fuel).parseImportB x1

/-- `Parser.parseInput`. -/
def parseInputB (fuel : Nat) (x1 : PSB) : Res (NodeB × PSB) :=
  (ParsePackBAt fuel).parseInputB x1

/-- `Parser.parseLen`. -/
def parseLenB (fuel : Nat) (x1 : PSB) : Res (NodeB × PSB) :=
  (ParsePackBAt fuel).parseLenB x1

/-- `Parser.parseGrouped`. -/
def parseGroupedB (fuel : Nat) (x1 : PSB) : Res (NodeB × PSB) :=
  (ParsePackBAt fuel).parseGroupedB x1


/-- `Parser.parse`: top-level loop emitting non-nil nodes until EOF. -/
def parseLoopB : Nat → List NodeB → PSB → Res (List NodeB)
  | 0, _, _ => .spin
  | fuel + 1, acc, s =>
    if s.cur.ttype = .eofT then .ok acc
    else
      (parseExpressionB fuel 1 s).bind fun (node, s1) =>
        let acc2 := if node.isNilB then acc else acc ++ [node]
        parseLoopB fuel acc2 (advanceB s1)

def parseProgramB (fuel : Nat) (toks : List Token) : Res (List NodeB) :=
  parseLoopB fuel [] (initPSB toks)

/-! ### The `Scope` evaluator (variant B) -/

/-- Runtime values of the `Scope` evaluator.  A function value is the
`*FunctionNode` pointer itself (`FunctionNode.Eval` returns `n`), so `vfn`
carries the node's immutable fields plus `fid`, the node's allocation
index; the node's mutable `Scope` field lives in the state
(`StateB.fnScopes`), shared by every copy of the pointer. -/
inductive ValueB where
  | vnil
  | vint (n : Int)
  | vfloat (q : ℚ)
  | vstr (s : String)
  | vbool (b : Bool)
  | varr (elems : List ValueB)
  | vmap (pairs : List (ValueB × ValueB))
  | vfn (name : String) (params : List String) (body : List NodeB)
      (fid : Nat)
  deriving Repr

def ValueB.isNilV : ValueB → Bool
  | .vnil => true
  | _ => false

def veqB : ValueB → ValueB → Bool
  | .vnil, .vnil => true
  | .vint a, .vint b => a = b
  | .vfloat a, .vfloat b => a = b
  | .vstr a, .vstr b => a = b
  | .vbool a, .vbool b => a = b
  | .vfn _ _ _ a, .vfn _ _ _ b => a = b
  | _, _ => false

structure ScopeB where
  vars : List (String × ValueB)
  funcs : List (String × ValueB)
  parent : Option Nat
  deriving Repr

/-- Evaluator state: the scope heap, the print output, and `fnScopes`, the
mutable `Scope` field of every `FunctionNode` allocated so far (keyed by
the node's allocation index).  `FunctionNode.Eval` has a pointer receiver
and writes this field in place (`n.Scope = s`), so all function values
holding the same node observe the latest write; a missing entry is the
field's zero value, the nil pointer. -/
structure StateB where
  heap : List ScopeB
  out : List (List ValueB)
  fnScopes : List (Nat × Nat)
  deriving Repr

def emptyStateB : StateB := ⟨[⟨[], [], none⟩], [], []⟩

def fnScopeSet (l : List (Nat × Nat)) (fid sc : Nat) : List (Nat × Nat) :=
  match l with
  | [] => [(fid, sc)]
  | (k, v) :: r =>
    if k = fid then (fid, sc) :: r else (k, v) :: fnScopeSet r fid sc

def fnScopeGet (l : List (Nat × Nat)) (fid : Nat) : Option Nat :=
  match l with
  | [] => none
  | (k, v) :: r => if k = fid then some v else fnScopeGet r fid

/-- `n.Scope = s` in `FunctionNode.Eval`: overwrite the one slot shared by
every reference to the node `fid`. -/
def setFnScope (st : StateB) (fid sc : Nat) : StateB :=
  { st with fnScopes := fnScopeSet st.fnScopes fid sc }

/-- The read of `fn.Scope` in `applyFunction`, performed at call time
(`none` is the nil pointer of a node whose `Eval` never ran). -/
def getFnScope (st : StateB) (fid : Nat) : Option Nat :=
  fnScopeGet st.fnScopes fid

def vmapSetB (l : List (ValueB × ValueB)) (k v : ValueB) :
    List (ValueB × ValueB) :=
  match l with
  | [] => [(k, v)]
  | (k', v') :: r =>
    if veqB k' k then (k, v) :: r else (k', v') :: vmapSetB r k v

def vmapGetB (l : List (ValueB × ValueB)) (k : ValueB) : Option ValueB :=
  match l with
  | [] => none
  | (k', v') :: r => if veqB k' k then some v' else vmapGetB r k

/-- `Scope.GetVariable`: this scope, else the parent chain. -/
def getVarChainB : Nat → StateB → Nat → String → Option ValueB
  | 0, _, _, _ => none
  | depth + 1, st, scopeId, name =>
    match st.heap.get? scopeId with
    | none => none
    | some sc =>
      match assocGet sc.vars name with
      | some v => some v
      | none =>
        match sc.parent with
        | some p => getVarChainB depth st p name
        | none => none

def getVarB (st : StateB) (scopeId : Nat) (name : String) : Option ValueB :=
  getVarChainB (st.heap.length + 1) st scopeId name

/-- `Scope.GetFunction`. -/
def getFuncChainB : Nat → StateB → Nat → String → Option ValueB
  | 0, _, _, _ => none
  | depth + 1, st, scopeId, name =>
    match st.heap.get? scopeId with
    | none => none
    | some sc =>
      match assocGet sc.funcs name with
      | some v => some v
      | none =>
        match sc.parent with
        | some p => getFuncChainB depth st p name
        | none => none

def getFuncB (st : StateB) (scopeId : Nat) (name : String) : Option ValueB :=
  getFuncChainB (st.heap.length + 1) st scopeId name

/-- `Scope.SetVariable` (writes the receiver scope). -/
def setVarRawB (st : StateB) (scopeId : Nat) (name : String) (v : ValueB) :
    StateB :=
  match st.heap.get? scopeId with
  | none => st
  | some sc =>
    { st with heap := st.heap.set scopeId { sc with vars := assocSet sc.vars name v } }

/-- `Scope.SetFunction`. -/
def setFuncB (st : StateB) (scopeId : Nat) (name : String) (v : ValueB) :
    StateB :=
  match st.heap.get? scopeId with
  | none => st
  | some sc =>
    { st with heap := st.heap.set scopeId { sc with funcs := assocSet sc.funcs name v } }

/-- In-place mutation of an array/map through a shared Go slice/map value
(`subj[i] = value` with no write-back): modelled by updating the variable in
the scope where its name is bound, which is where every alias in the
verified programs reads it from. -/
def setVarWhereBoundB (fuelD : Nat) (st : StateB) (scopeId : Nat)
    (name : String) (v : ValueB) : StateB :=
  match fuelD with
  | 0 => st
  | depth + 1 =>
    match st.heap.get? scopeId with
    | none => st
    | some sc =>
      match assocGet sc.vars name with
      | some _ => setVarRawB st scopeId name v
      | none =>
        match sc.parent with
        | some p => setVarWhereBoundB depth st p name v
        | none => st

def pushScopeB (st : StateB) (parent : Option Nat) : Nat × StateB :=
  (st.heap.length, { st with heap := st.heap ++ [⟨[], [], parent⟩] })

/-- `evalIntBinary`: int ∘ int stays int (division truncating, zero divisor
panics); int ∘ float promotes the int; anything else is fatal, as is an
operator missing from the switch. -/
def evalIntBinaryB (l : Int) (r : ValueB) (op : String) : Res ValueB :=
  match r with
  | .vint rv =>
    match op with
    | "+" => .ok (.vint (l + rv))
    | "-" => .ok (.vint (l - rv))
    | "*" => .ok (.vint (l * rv))
    | "/" =>
      if rv = 0 then .fatal "integer divide by zero"
      else .ok (.vint (Int.tdiv l rv))
    | ">" => .ok (.vbool (l > rv))
    | ">=" => .ok (.vbool (l ≥ rv))
    | "<" => .ok (.vbool (l < rv))
    | "<=" => .ok (.vbool (l ≤ rv))
    | "==" => .ok (.vbool (l = rv))
    | "!=" => .ok (.vbool (l ≠ rv))
    | _ => .fatal ("Invalid operation " ++ op ++ " between int and int")
  | .vfloat rv =>
    let lv : ℚ := intToRat l
    match op with
    | "+" => .ok (.vfloat (ratAdd lv rv))
    | "-" => .ok (.vfloat (ratSub lv rv))
    | "*" => .ok (.vfloat (ratMul lv rv))
    | "/" => .ok (.vfloat (ratDiv lv rv))
    | ">" => .ok (.vbool (lv > rv))
    | ">=" => .ok (.vbool (lv ≥ rv))
    | "<" => .ok (.vbool (lv < rv))
    | "<=" => .ok (.vbool (lv ≤ rv))
    | "==" => .ok (.vbool (lv = rv))
    | "!=" => .ok (.vbool (lv ≠ rv))
    | _ => .fatal ("Invalid operation " ++ op ++ " between int and float")
  | _ => .fatal ("Invalid operation " ++ op ++ " between int and other")

/-- `evalFloatBinary`. -/
def evalFloatBinaryB (l : ℚ) (r : ValueB) (op : String) : Res ValueB :=
  match r with
  | .vint rv0 =>
    let rv : ℚ := intToRat rv0
    match op with
    | "+" => .ok (.vfloat (ratAdd l rv))
    | "-" => .ok (.vfloat (ratSub l rv))
    | "*" => .ok (.vfloat (ratMul l rv))
    | "/" => .ok (.vfloat (ratDiv l rv))
    | ">" => .ok (.vbool (l > rv))
    | ">=" => .ok (.vbool (l ≥ rv))
    | "<" => .ok (.vbool (l < rv))
    | "<=" => .ok (.vbool (l ≤ rv))
    | "==" => .ok (.vbool (l = rv))
    | "!=" => .ok (.vbool (l ≠ rv))
    | _ => .fatal ("Invalid operation " ++ op ++ " between float and int")
  | .vfloat rv =>
    match op with
    | "+" => .ok (.vfloat (ratAdd l rv))
    | "-" => .ok (.vfloat (ratSub l rv))
    | "*" => .ok (.vfloat (ratMul l rv))
    | "/" => .ok (.vfloat (ratDiv l rv))
    | ">" => .ok (.vbool (l > rv))
    | ">=" => .ok (.vbool (l ≥ rv))
    | "<" => .ok (.vbool (l < rv))
    | "<=" => .ok (.vbool (l ≤ rv))
    | "==" => .ok (.vbool (l = rv))
    | "!=" => .ok (.vbool (l ≠ rv))
    | _ => .fatal ("Invalid operation " ++ op ++ " between float and float")
  | _ => .fatal ("Invalid operation " ++ op ++ " between float and other")

/-- `evalStringBinary`: any operator other than `+` is immediately fatal;
`+` concatenates with a string, `Itoa` of an int, or `FormatFloat` of a
float, and is fatal for any other right operand. -/
def evalStringBinaryB (l : String) (r : ValueB) (op : String) : Res ValueB :=
  if op ≠ "+" then .fatal ("Invalid operation " ++ op ++ " on string")
  else
    match r with
    | .vstr rv => .ok (.vstr (l ++ rv))
    | .vint rv => .ok (.vstr (l ++ intToDecString rv))
    | .vfloat rv => .ok (.vstr (l ++ formatFloatGo rv))
    | _ => .fatal "Cannot concatenate string with other"

/-- `evalBoolBinary`. -/
def evalBoolBinaryB (l : Bool) (r : ValueB) (op : String) : Res ValueB :=
  match r with
  | .vbool rv =>
    match op with
    | "==" => .ok (.vbool (l = rv))
    | "!=" => .ok (.vbool (l ≠ rv))
    | "or" => .ok (.vbool (l || rv))
    | "and" => .ok (.vbool (l && rv))
    | _ => .fatal ("Invalid operation " ++ op ++ " between bool and bool")
  | _ => .fatal ("Invalid operation " ++ op ++ " between bool and other")

/-- The dispatch of `BinaryOpNode.Eval` on the left operand's dynamic type;
nil and collection left operands are fatal. -/
def binaryEvalB (op : String) (l r : ValueB) : Res ValueB :=
  match l with
  | .vint lv => evalIntBinaryB lv r op
  | .vfloat lv => evalFloatBinaryB lv r op
  | .vstr lv => evalStringBinaryB lv r op
  | .vbool lv => evalBoolBinaryB lv r op
  | _ => .fatal ("Unsupported types for operator " ++ op)

/-- `UnaryOpNode.Eval`'s operator table (fatal on anything else). -/
def unaryEvalB (op : String) (v : ValueB) : Res ValueB :=
  match op, v with
  | "-", .vint n => .ok (.vint (-n))
  | "-", .vfloat q => .ok (.vfloat (ratNeg q))
  | "!", .vbool b => .ok (.vbool (!b))
  | _, _ => .fatal ("Invalid unary operation: " ++ op)

/-- The early-return test of `BlockNode.Eval`: statement kinds `IfNode` and
`ReturnNode` — with no check on the produced value. -/
def isIfOrReturnB : NodeB → Bool
  | .ifN _ _ _ => true
  | .retN _ => true
  | _ => false

/-- `RangeNode.Eval` after operand evaluation: ascending when `from <= to`
(step as given), else descending with the step's sign normalized. -/
def rangeCoreB (fuel : Nat) (fromV toV : Int) (stepO : Option Int) :
    Option (List Int) :=
  let step := stepO.getD 1
  if fromV ≤ toV then upLoopA fuel fromV toV step
  else downLoopA fuel fromV toV (if step > 0 then -step else step)

def bindParamsB (st : StateB) (scopeId : Nat) : List String → List ValueB →
    StateB
  | [], _ => st
  | _ :: _, [] => st
  | p :: ps, a :: as' => bindParamsB (setVarRawB st scopeId p a) scopeId ps as'

/-- One level of the mutually recursive functions below; level `n + 1`
calls level `n` through `P`, so the fuel argument of the wrappers
decrements on every call exactly as the Go call tree recurses. -/
structure EvalPackB where
  evalB : NodeB → Nat → StateB → Res (ValueB × StateB)
  mutateIndexB : NodeB → ValueB → ValueB → ValueB → Nat → StateB → Res StateB
  setSwapTargetB : NodeB → ValueB → Nat → StateB → Res StateB
  evalBlockB : List NodeB → ValueB → Nat → StateB → Res (ValueB × StateB)
  evalListB : List NodeB → Nat → StateB → Res (List ValueB × StateB)
  evalMapPairsB : List (NodeB × NodeB) → List (ValueB × ValueB) → Nat → StateB → Res (List (ValueB × ValueB) × StateB)
  applyFunctionB : List String → List NodeB → Option Nat → List ValueB → Bool → StateB → Res (ValueB × StateB)
  forCharsB : List String → List NodeB → Nat → List Char → StateB → Res StateB
  forMapB : List String → List NodeB → Nat → Bool → List (ValueB × ValueB) → StateB → Res StateB
  forArrB : List String → List NodeB → Nat → Bool → Nat → List ValueB → StateB → Res StateB

/-- Level 0: out of fuel everywhere. -/
def EvalPackBBase : EvalPackB where
  evalB := fun _ _ _ => .spin
  mutateIndexB := fun _ _ _ _ _ _ => .spin
  setSwapTargetB := fun _ _ _ _ => .spin
  evalBlockB := fun _ _ _ _ => .spin
  evalListB := fun _ _ _ => .spin
  evalMapPairsB := fun _ _ _ _ => .spin
  applyFunctionB := fun _ _ _ _ _ _ => .spin
  forCharsB := fun _ _ _ _ _ => .spin
  forMapB := fun _ _ _ _ _ _ => .spin
  forArrB := fun _ _ _ _ _ _ _ => .spin

def EvalPackBStep (n : Nat) (P : EvalPackB) : EvalPackB where
  evalB := fun node sc st =>
      match node with
      | .nilB => .fatal "nil node"
      | .strN v => .ok (.vstr v, st)
      | .intN v => .ok (.vint v, st)
      | .floatN v => .ok (.vfloat v, st)
      | .boolN v => .ok (.vbool v, st)
      | .retN e => P.evalB e sc st
      | .identB name =>
        match getFuncB st sc name with
        | some f => .ok (f, st)
        | none =>
          match getVarB st sc name with
          | some v => .ok (v, st)
          | none => .fatal ("Undefined identifier: " ++ name)
      | .varN name value =>
        (P.evalB value sc st).bind fun (v, st1) =>
          match name with
          | .identB n => .ok (v, setVarRawB st1 sc n v)
          | .idxN subjN idxN' =>
            (P.evalB subjN sc st1).bind fun (subj, st2) =>
              (P.evalB idxN' sc st2).bind fun (iv, st3) =>
                (P.mutateIndexB subjN subj iv v sc st3).bind fun st4 =>
                  .ok (v, st4)
          | _ => .fatal "Unsupported variable target type"
      | .unaryN op right =>
        (P.evalB right sc st).bind fun (v, st1) =>
          (unaryEvalB op v).bind fun r => .ok (r, st1)
      | .binN op l r =>
        (P.evalB l sc st).bind fun (lv, st1) =>
          (P.evalB r sc st1).bind fun (rv, st2) =>
            (binaryEvalB op lv rv).bind fun v => .ok (v, st2)
      | .ifN cond trueB elseB =>
        (P.evalB cond sc st).bind fun (c, st1) =>
          match c with
          | .vbool b =>
            if b then P.evalBlockB trueB .vnil sc st1
            else
              match elseB with
              | some eb => P.evalBlockB eb .vnil sc st1
              | none => .ok (.vnil, st1)
          | _ => .fatal "if condition is not a bool"
      | .forN key val subject body =>
        (P.evalB subject sc st).bind fun (sv, st1) =>
          let params := key :: (match val with | some v => [v] | none => [])
          match sv with
          | .vmap m =>
            (P.forMapB params body sc val.isSome m st1).bind fun st2 =>
              .ok (.vnil, st2)
          | .vstr s =>
            (P.forCharsB params body sc s.data st1).bind fun st2 =>
              .ok (.vnil, st2)
          | .varr elems =>
            (P.forArrB params body sc val.isSome 0 elems st1).bind fun st2 =>
              .ok (.vnil, st2)
          | _ => .ok (.vnil, st1)
      | .rangeN fromN toN stepN =>
        (P.evalB fromN sc st).bind fun (fv, st1) =>
          match fv with
          | .vint fromV =>
            (P.evalB toN sc st1).bind fun (tv, st2) =>
              match tv with
              | .vint toV =>
                match stepN with
                | none =>
                  match rangeCoreB n fromV toV none with
                  | none => .spin
                  | some l => .ok (.varr (l.map .vint), st2)
                | some sN =>
                  (P.evalB sN sc st2).bind fun (sv, st3) =>
                    match sv with
                    | .vint stepV =>
                      match rangeCoreB n fromV toV (some stepV) with
                      | none => .spin
                      | some l => .ok (.varr (l.map .vint), st3)
                    | _ => .fatal "range step is not an int"
              | _ => .fatal "range bound is not an int"
          | _ => .fatal "range bound is not an int"
      | .printN args _ =>
        (P.evalListB args sc st).bind fun (vs, st1) =>
          .ok (.vnil, { st1 with out := st1.out ++ [vs] })
      | .arrN elems =>
        (P.evalListB elems sc st).bind fun (vs, st1) => .ok (.varr vs, st1)
      | .mapN pairs =>
        (P.evalMapPairsB pairs [] sc st).bind fun (m, st1) =>
          .ok (.vmap m, st1)
      | .idxN subjN idxN' =>
        (P.evalB subjN sc st).bind fun (subj, st1) =>
          (P.evalB idxN' sc st1).bind fun (iv, st2) =>
            match subj with
            | .varr elems =>
              match iv with
              | .vint n =>
                if h : 0 ≤ n ∧ n.toNat < elems.length then
                  .ok (elems.get ⟨n.toNat, h.2⟩, st2)
                else .fatal "index out of range"
              | _ => .fatal "array index is not an int"
            | .vmap m => .ok ((vmapGetB m iv).getD .vnil, st2)
            | _ => .fatal "Cannot index into this type"
      | .fnN name params body fid =>
        let st1 := setFnScope st fid sc
        let fv := ValueB.vfn name params body fid
        .ok (fv, setFuncB st1 sc name fv)
      | .callN fnNode args =>
        (P.evalB fnNode sc st).bind fun (fv, st1) =>
          match fv with
          | .vfn _ params body fid =>
            (P.evalListB args sc st1).bind fun (argvs, st2) =>
              P.applyFunctionB params body (getFnScope st2 fid) argvs true st2
          | _ => .fatal "Attempted to call a non-function"
      | .swapN l r =>
        (P.evalB l sc st).bind fun (lv, st1) =>
          (P.evalB r sc st1).bind fun (rv, st2) =>
            (P.setSwapTargetB l rv sc st2).bind fun st3 =>
              (P.setSwapTargetB r lv sc st3).bind fun st4 =>
                .ok (.vnil, st4)
      | .importN _ => .fatal "import: host file system outside the model"
      | .inputN _ => .fatal "input: host console outside the model"
      | .lenN e =>
        (P.evalB e sc st).bind fun (v, st1) =>
          match v with
          | .vstr s => .ok (.vint s.utf8ByteSize, st1)
          | .varr elems => .ok (.vint elems.length, st1)
          | .vmap m => .ok (.vint m.length, st1)
          | _ => .fatal "Len not applicable"

  mutateIndexB := fun subjN subj iv v sc st =>
      match subj with
      | .varr elems =>
        match iv with
        | .vint n =>
          if 0 ≤ n ∧ n.toNat < elems.length then
            match subjN with
            | .identB name =>
              .ok (setVarWhereBoundB (st.heap.length + 1) st sc name
                (.varr (elems.set n.toNat v)))
            | _ => .ok st
          else .fatal "index out of range"
        | _ => .fatal "array index is not an int"
      | .vmap m =>
        match subjN with
        | .identB name =>
          .ok (setVarWhereBoundB (st.heap.length + 1) st sc name
            (.vmap (vmapSetB m iv v)))
        | _ => .ok st
      | _ => .fatal "Cannot index into this type"

  setSwapTargetB := fun target v sc st =>
      match target with
      | .identB n => .ok (setVarRawB st sc n v)
      | .idxN subjN idxN' =>
        (P.evalB subjN sc st).bind fun (subj, st1) =>
          (P.evalB idxN' sc st1).bind fun (iv, st2) =>
            P.mutateIndexB subjN subj iv v sc st2
      | _ => .fatal "Unsupported swap target type"

  evalBlockB := fun a1 a2 a3 a4 =>
    match a1, a2, a3, a4 with
    | [], result, _, st => .ok (result, st)
    | stmt :: rest, _, sc, st => (P.evalB stmt sc st).bind fun (r, st1) =>
          if isIfOrReturnB stmt then .ok (r, st1)
          else P.evalBlockB rest r sc st1

  evalListB := fun a1 a2 a3 =>
    match a1, a2, a3 with
    | [], _, st => .ok ([], st)
    | e :: rest, sc, st => (P.evalB e sc st).bind fun (v, st1) =>
          (P.evalListB rest sc st1).bind fun (vs, st2) => .ok (v :: vs, st2)

  evalMapPairsB := fun a1 a2 a3 a4 =>
    match a1, a2, a3, a4 with
    | [], acc, _, st => .ok (acc, st)
    | (kN, vN) :: rest, acc, sc, st => (P.evalB kN sc st).bind fun (k, st1) =>
          (P.evalB vN sc st1).bind fun (v, st2) =>
            P.evalMapPairsB rest (vmapSetB acc k v) sc st2

  applyFunctionB := fun params body fscope args newScope st =>
      let alloc : Option (Nat × StateB) :=
        if newScope then some (pushScopeB st fscope)
        else match fscope with
          | some s0 => some (s0, st)
          | none => none
      match alloc with
      | none => .fatal "nil scope dereference"
      | some (scopeId, st1) =>
        if args.length < params.length then .fatal "missing call argument"
        else
          let st2 := bindParamsB st1 scopeId params args
          P.evalBlockB body .vnil scopeId st2

  forCharsB := fun a1 a2 a3 a4 a5 =>
    match a1, a2, a3, a4, a5 with
    | _, _, _, [], st => .ok st
    | params, body, sc, c :: cs, st => (P.applyFunctionB params body (some sc) [.vstr (String.mk [c])] false st).bind
          fun (_, st1) => P.forCharsB params body sc cs st1

  forMapB := fun a1 a2 a3 a4 a5 a6 =>
    match a1, a2, a3, a4, a5, a6 with
    | _, _, _, _, [], st => .ok st
    | params, body, sc, twoVar, (k, v) :: rest, st => let args := if twoVar then [k, v] else [k]
        (P.applyFunctionB params body (some sc) args false st).bind fun (_, st1) =>
          P.forMapB params body sc twoVar rest st1

  forArrB := fun a1 a2 a3 a4 a5 a6 a7 =>
    match a1, a2, a3, a4, a5, a6, a7 with
    | _, _, _, _, _, [], st => .ok st
    | params, body, sc, twoVar, i, v :: rest, st => let args := if twoVar then [.vint i, v] else [v]
        (P.applyFunctionB params body (some sc) args false st).bind fun (_, st1) =>
          P.forArrB params body sc twoVar (i + 1) rest st1


def EvalPackBAt : Nat → EvalPackB := fun fuel =>
  Nat.rec EvalPackBBase (fun n ih => EvalPackBStep n ih) fuel

/-- `Node.Eval` of the `Scope` evaluator. -/
def evalB (fuel : Nat) (x1 : NodeB) (x2 : Nat) (x3 : StateB) : Res (ValueB × StateB) :=
  (EvalPackBAt fuel).evalB x1 x2 x3

/-- `subj[index] = value` for the slice/map obtained from an index target:
mutation through the shared reference, reflected at the variable's binding
site when the subject is a plain name (the only shape the programs below
use). -/
def mutateIndexB (fuel : Nat) (x1 : NodeB) (x2 : ValueB) (x3 : ValueB) (x4 : ValueB) (x5 : Nat) (x6 : StateB) : Res StateB :=
  (EvalPackBAt fuel).mutateIndexB x1 x2 x3 x4 x5 x6

/-- The `setValue` closure of `SwapNode.Eval`. -/
def setSwapTargetB (fuel : Nat) (x1 : NodeB) (x2 : ValueB) (x3 : Nat) (x4 : StateB) : Res StateB :=
  (EvalPackBAt fuel).setSwapTargetB x1 x2 x3 x4

/-- `BlockNode.Eval`: statements in order; any statement of kind
`IfNode`/`ReturnNode` returns immediately with its value, nil or not. -/
def evalBlockB (fuel : Nat) (x1 : List NodeB) (x2 : ValueB) (x3 : Nat) (x4 : StateB) : Res (ValueB × StateB) :=
  (EvalPackBAt fuel).evalBlockB x1 x2 x3 x4

/-- `evalArgs`. -/
def evalListB (fuel : Nat) (x1 : List NodeB) (x2 : Nat) (x3 : StateB) : Res (List ValueB × StateB) :=
  (EvalPackBAt fuel).evalListB x1 x2 x3

/-- `MapNode.Eval`. -/
def evalMapPairsB (fuel : Nat) (x1 : List (NodeB × NodeB)) (x2 : List (ValueB × ValueB)) (x3 : Nat) (x4 : StateB) : Res (List (ValueB × ValueB) × StateB) :=
  (EvalPackBAt fuel).evalMapPairsB x1 x2 x3 x4

/-- `applyFunction` (repl.go): the third argument is the value of
`fn.Scope` as read from the shared node at call time (`none` for the nil
pointer); optionally a fresh child of that scope, positional parameter
binding (`args[i]` panics when missing), body evaluation in that scope. -/
def applyFunctionB (fuel : Nat) (x1 : List String) (x2 : List NodeB) (x3 : Option Nat) (x4 : List ValueB) (x5 : Bool) (x6 : StateB) : Res (ValueB × StateB) :=
  (EvalPackBAt fuel).applyFunctionB x1 x2 x3 x4 x5 x6

def forCharsB (fuel : Nat) (x1 : List String) (x2 : List NodeB) (x3 : Nat) (x4 : List Char) (x5 : StateB) : Res StateB :=
  (EvalPackBAt fuel).forCharsB x1 x2 x3 x4 x5

def forMapB (fuel : Nat) (x1 : List String) (x2 : List NodeB) (x3 : Nat) (x4 : Bool) (x5 : List (ValueB × ValueB)) (x6 : StateB) : Res StateB :=
  (EvalPackBAt fuel).forMapB x1 x2 x3 x4 x5 x6

def forArrB (fuel : Nat) (x1 : List String) (x2 : List NodeB) (x3 : Nat) (x4 : Bool) (x5 : Nat) (x6 : List ValueB) (x7 : StateB) : Res StateB :=
  (EvalPackBAt fuel).forArrB x1 x2 x3 x4 x5 x6 x7


/-- `Evaluate` (repl.go): fold the node sequence, keeping the last value. -/
def evalNodesB : Nat → List NodeB → ValueB → Nat → StateB →
    Res (ValueB × StateB)
  | 0, _, _, _, _ => .spin
  | _ + 1, [], result, _, st => .ok (result, st)
  | fuel + 1, n :: rest, _, sc, st =>
    (evalB fuel n sc st).bind fun (v, st1) => evalNodesB fuel rest v sc st1

/-! ### Observations

Projections of evaluation outcomes into decidable types, used to state and
check concrete runs. -/

def ValueA.asInt : ValueA → Option Int
  | .vint n => some n
  | _ => none

def ValueA.asFloat : ValueA → Option ℚ
  | .vfloat q => some q
  | _ => none

def ValueA.asStr : ValueA → Option String
  | .vstr s => some s
  | _ => none

def ValueA.asIntList : ValueA → Option (List Int)
  | .varr l => l.mapM ValueA.asInt
  | _ => none

def resIntA (r : Res (ValueA × StateA)) : Option Int :=
  match r with
  | .ok (v, _) => v.asInt
  | _ => none

def resFloatA (r : Res (ValueA × StateA)) : Option ℚ :=
  match r with
  | .ok (v, _) => v.asFloat
  | _ => none

def resStrA (r : Res (ValueA × StateA)) : Option String :=
  match r with
  | .ok (v, _) => v.asStr
  | _ => none

def resIntListA (r : Res (ValueA × StateA)) : Option (List Int) :=
  match r with
  | .ok (v, _) => v.asIntList
  | _ => none

def ValueB.asInt : ValueB → Option Int
  | .vint n => some n
  | _ => none

def ValueB.asIntList : ValueB → Option (List Int)
  | .varr l => l.mapM ValueB.asInt
  | _ => none

def resIntListB (r : Res (ValueB × StateB)) : Option (List Int) :=
  match r with
  | .ok (v, _) => v.asIntList
  | _ => none

/-- Read an integer variable from the root scope of a finished run. -/
def finalVarIntB (r : Res (ValueB × StateB)) (name : String) : Option Int :=
  match r with
  | .ok (_, st) => (getVarB st 0 name).bind ValueB.asInt
  | _ => none

/-- The final state of a finished run (a default for an aborted one). -/
def Res.stateD (r : Res (ValueB × StateB)) (d : StateB) : StateB :=
  match r with
  | .ok (_, st) => st
  | _ => d

/-! ### Unfolding equations (all definitional) -/

theorem evalA_infix_succ (fuel : Nat) (lexop : Lexeme) (L R : NodeA)
    (env : Nat) (st : StateA) :
    evalA (fuel + 1) (.infixOpN lexop L R) env st =
      (evalA fuel L env st).bind fun (lv, st1) =>
        (evalA fuel R env st1).bind fun (rv, st2) =>
          (infixEvalA lexop.text lv rv).bind fun v => .ok (v, st2) := rfl

theorem evalBlockA_cons_succ (fuel : Nat) (stm : NodeA) (rest : List NodeA)
    (res : ValueA) (env : Nat) (st : StateA) :
    evalBlockA (fuel + 1) (stm :: rest) res env st =
      if stm.isNil then evalBlockA fuel rest res env st
      else
        (evalA fuel stm env st).bind fun (r, st1) =>
          if ¬r.isNilV ∧ isIfOrReturnA stm then .ok (r, st1)
          else evalBlockA fuel rest r env st1 := rfl

theorem evalBlockB_cons_succ (fuel : Nat) (stmt : NodeB) (rest : List NodeB)
    (res : ValueB) (sc : Nat) (st : StateB) :
    evalBlockB (fuel + 1) (stmt :: rest) res sc st =
      (evalB fuel stmt sc st).bind fun (r, st1) =>
        if isIfOrReturnB stmt then .ok (r, st1)
        else evalBlockB fuel rest r sc st1 := rfl

theorem parseExprA_succ (fuel : Nat) (prec : Nat) (s : PSA) :
    parseExprA (fuel + 1) prec s =
      match prefixDispatchA fuel s with
      | none => none
      | some (left, s1) => parseExprLoopA fuel prec left s1 := rfl

theorem parseBlockLoopA_succ (fuel : Nat) (acc : List NodeA) (s : PSA) :
    parseBlockLoopA (fuel + 1) acc s =
      if s.nxt.kind = .rcurlyK then some (acc, advanceA s)
      else
        match parseExprA fuel 1 (advanceA s) with
        | none => none
        | some (e, s1) => parseBlockLoopA fuel (acc ++ [e]) s1 := rfl

theorem processLoopA_succ (fuel : Nat) (acc : List NodeA) (s : PSA) :
    processLoopA (fuel + 1) acc s =
      if s.cur.kind = .eofK then some acc
      else
        match parseExprA fuel 1 s with
        | none => none
        | some (node, s1) =>
          processLoopA fuel (if node.isNil then acc else acc ++ [node])
            (advanceA s1) := rfl

/-! ### C1 -/

/-- C1: infix expressions are grouped by the registered precedence levels
(assignment/equality lowest, then relational, additive, multiplicative,
prefix, call, index, range highest) with left-associativity for
same-precedence chains: `1 + 2 * 3` evaluates to 7, `(1 + 2) * 3` to 9,
`2 * 3 + 4 * 5` to 26 (and the left-associative `1 - 2 - 3` to -4). -/
theorem c1_precedence :
    resIntA (runProgramA 30 "1 + 2 * 3") = some 7 ∧
    resIntA (runProgramA 30 "(1 + 2) * 3") = some 9 ∧
    resIntA (runProgramA 30 "2 * 3 + 4 * 5") = some 26 ∧
    resIntA (runProgramA 30 "1 - 2 - 3") = some (-4) ∧
    (getPrecedenceA .assignK = getPrecedenceA .eqK ∧
     getPrecedenceA .eqK < getPrecedenceA .ltK ∧
     getPrecedenceA .ltK < getPrecedenceA .plusK ∧
     getPrecedenceA .plusK < getPrecedenceA .starK ∧
     getPrecedenceA .starK < 6 ∧ 6 < getPrecedenceA .lparenK ∧
     getPrecedenceA .lparenK < getPrecedenceA .lbracketK ∧
     getPrecedenceA .lbracketK < getPrecedenceA .dotdotK) :=
  ⟨by decide, by decide, by decide, by decide, by decide⟩

/-! ### C2 -/

/-- C2: an int combined with a float promotes the int to float
(`1 + 2.5` is the float 3.5); a string left operand concatenates with a
string, int, or float right operand after converting it to decimal text
(`"x=" + 1` is "x=1", `"x=" + 1.5` is "x=1.5"); and `+` is the only
operator defined on strings — every other operator on a string left operand
is a fatal error. -/
theorem c2_coercion :
    resFloatA (runProgramA 30 "1 + 2.5") = some (mkRat 7 2) ∧
    resStrA (runProgramA 30 "\"x=\" + 1") = some "x=1" ∧
    resStrA (runProgramA 30 "\"x=\" + 1.5") = some "x=1.5" ∧
    (∀ (n : Int) (q : ℚ),
      infixEvalA "+" (.vint n) (.vfloat q) =
        .ok (.vfloat (ratAdd (intToRat n) q))) ∧
    (∀ (n : Int) (q : ℚ),
      infixEvalA "+" (.vfloat q) (.vint n) =
        .ok (.vfloat (ratAdd (intToRat n) q))) ∧
    (∀ l r : String, evalStringBinaryB l (.vstr r) "+" = .ok (.vstr (l ++ r))) ∧
    (∀ (l : String) (n : Int),
      evalStringBinaryB l (.vint n) "+" = .ok (.vstr (l ++ intToDecString n))) ∧
    (∀ (l : String) (q : ℚ),
      evalStringBinaryB l (.vfloat q) "+" = .ok (.vstr (l ++ formatFloatGo q))) ∧
    (∀ (op l : String) (r : ValueB), op ≠ "+" →
      evalStringBinaryB l r op =
        .fatal ("Invalid operation " ++ op ++ " on string")) := by
  refine ⟨by decide, by decide, by decide, fun n q => rfl, fun n q => rfl,
    fun l r => rfl, fun l n => rfl, fun l q => rfl, fun op l r h => ?_⟩
  simp [evalStringBinaryB, h]

theorem c2_witness :
    evalStringBinaryB "x=" (.vint 1) "-" =
      .fatal "Invalid operation - on string" :=
  c2_coercion.2.2.2.2.2.2.2.2 "-" "x=" (.vint 1) (by decide)

/-! ### C3 -/

/-- The integer interval `[a, b]` with both endpoints included. -/
def intRangeIncl (a b : Int) : List Int :=
  (List.range ((b - a).toNat + 1)).map (fun (k : Nat) => a + (k : Int))

theorem intRangeIncl_self (a : Int) : intRangeIncl a a = [a] := by
  rw [intRangeIncl, show (a - a).toNat = 0 from by omega]
  simp [List.range_succ]

theorem intRangeIncl_cons {a b : Int} (h : a < b) :
    intRangeIncl a b = a :: intRangeIncl (a + 1) b := by
  have h1 : (b - a).toNat + 1 = (b - (a + 1)).toNat + 1 + 1 := by omega
  rw [intRangeIncl, intRangeIncl, h1, List.range_succ_eq_map, List.map_cons,
    List.map_map]
  congr 1
  · simp
  · apply List.map_congr_left
    intro x _
    simp only [Function.comp_apply]
    push_cast
    ring

theorem upLoopA_step_one : ∀ (fuel : Nat) (a b : Int), a ≤ b →
    (b - a).toNat + 2 ≤ fuel → upLoopA fuel a b 1 = some (intRangeIncl a b) := by
  intro fuel
  induction fuel with
  | zero => intro a b _ hf; exact absurd hf (by omega)
  | succ f ih =>
    intro a b hab hf
    simp only [upLoopA]
    rw [if_pos hab]
    rcases lt_or_eq_of_le hab with h | h
    · rw [ih (a + 1) b (by omega) (by omega), Option.map_some',
        intRangeIncl_cons h]
    · subst h
      rcases f with _ | f2
      · exact absurd hf (by omega)
      · simp only [upLoopA]
        rw [if_neg (by omega), Option.map_some', intRangeIncl_self]

/-- C3: ranges over integer endpoints materialize an inclusive sequence:
`1..5` is [1,2,3,4,5], `5..1` is [5,4,3,2,1], `1..10:2` is [1,3,5,7,9];
a default-step ascending range is exactly the inclusive interval (both
endpoints present); and when `from > to` the evaluation descends, using the
explicit step with its sign normalized to negative regardless of how it was
written. -/
theorem c3_range :
    resIntListA (runProgramA 20 "1..5") = some [1, 2, 3, 4, 5] ∧
    resIntListA (runProgramA 20 "5..1") = some [5, 4, 3, 2, 1] ∧
    resIntListA (runProgramA 20 "1..10:2") = some [1, 3, 5, 7, 9] ∧
    resIntListB (evalB 20 (.rangeN (.intN 5) (.intN 1) none) 0 emptyStateB) =
      some [5, 4, 3, 2, 1] ∧
    resIntListB (evalB 20 (.rangeN (.intN 1) (.intN 10)
      (some (.intN 2))) 0 emptyStateB) = some [1, 3, 5, 7, 9] ∧
    (∀ (fuel : Nat) (a b : Int), a < b → (b - a).toNat + 2 ≤ fuel →
      rangeCoreA fuel a b none = some (intRangeIncl a b)) ∧
    (∀ (fuel : Nat) (a b : Int), a ≤ b → (b - a).toNat + 2 ≤ fuel →
      rangeCoreB fuel a b none = some (intRangeIncl a b)) ∧
    (∀ (fuel : Nat) (a b s : Int), b < a →
      rangeCoreA fuel a b (some s) = downLoopA fuel a b (-(s.natAbs : Int)) ∧
      rangeCoreB fuel a b (some s) = downLoopA fuel a b (-(s.natAbs : Int))) ∧
    (∀ s : Int, s ≠ 0 → -(s.natAbs : Int) < 0) := by
  have hnorm : ∀ s : Int, (if s > 0 then -s else s) = -(s.natAbs : Int) := by
    intro s
    by_cases h : s > 0
    · rw [if_pos h, Int.natAbs_of_nonneg (le_of_lt h)]
    · rw [if_neg h]
      push_neg at h
      rw [← Int.abs_eq_natAbs, abs_of_nonpos h, neg_neg]
  refine ⟨by decide, by decide, by decide, by decide, by decide, ?_, ?_, ?_,
    fun s h => by have := Int.natAbs_pos.mpr h; omega⟩
  · intro fuel a b h hf
    simp only [rangeCoreA, Option.getD_none]
    rw [if_pos h]
    exact upLoopA_step_one fuel a b (le_of_lt h) hf
  · intro fuel a b h hf
    simp only [rangeCoreB, Option.getD_none]
    rw [if_pos h]
    exact upLoopA_step_one fuel a b h hf
  · intro fuel a b s h
    constructor
    · simp only [rangeCoreA, Option.getD_some]
      rw [if_neg (by omega), hnorm]
    · simp only [rangeCoreB, Option.getD_some]
      rw [if_neg (by omega), hnorm]

theorem c3_witness :
    rangeCoreA 10 1 5 none = some (intRangeIncl 1 5) ∧
    rangeCoreA 10 5 1 (some 2) = downLoopA 10 5 1 (-(Int.natAbs 2 : Int)) ∧
    rangeCoreB 10 5 1 (some (-2)) = downLoopA 10 5 1 (-(Int.natAbs (-2) : Int)) :=
  ⟨c3_range.2.2.2.2.2.1 10 1 5 (by decide) (by decide),
   (c3_range.2.2.2.2.2.2.2.1 10 5 1 2 (by decide)).1,
   (c3_range.2.2.2.2.2.2.2.1 10 5 1 (-2) (by decide)).2⟩

/-! ### C4 -/

/-- C4 counterexample: in the `Scope` evaluator (`BlockNode.Eval`) a block
whose first statement is an `if` with a false condition and no else — which
therefore yields nil — returns nil IMMEDIATELY: the following assignment
never executes (the state is unchanged) and the block's value is not the
42 the claim requires. -/
theorem c4_counterexample :
    evalBlockB 20 [.ifN (.boolN false) [] none, .varN (.identB "x") (.intN 42)]
      .vnil 0 emptyStateB = .ok (.vnil, emptyStateB) ∧
    ValueB.vnil ≠ ValueB.vint 42 :=
  ⟨rfl, nofun⟩

/-- C4 (amended): in the `Environment` evaluator (`BlockStmt.Evaluate`) a
block returns early exactly when a statement of kind if/return yields a
non-nil value, and a nil-valued statement — an `if` whose branch yields nil
included — lets the remaining statements execute; in the `Scope` evaluator
(`BlockNode.Eval`) any statement of kind if/return returns immediately with
its value, nil or not. -/
theorem c4_block_early_return :
    (∀ (fuel : Nat) (stm : NodeA) (rest : List NodeA) (res : ValueA)
        (env : Nat) (st st1 : StateA) (v : ValueA),
      stm.isNil = false → isIfOrReturnA stm = true →
      evalA fuel stm env st = .ok (v, st1) → v.isNilV = false →
      evalBlockA (fuel + 1) (stm :: rest) res env st = .ok (v, st1)) ∧
    (∀ (fuel : Nat) (stm : NodeA) (rest : List NodeA) (res : ValueA)
        (env : Nat) (st st1 : StateA),
      stm.isNil = false →
      evalA fuel stm env st = .ok (.vnil, st1) →
      evalBlockA (fuel + 1) (stm :: rest) res env st =
        evalBlockA fuel rest .vnil env st1) ∧
    resIntA (evalBlockA 20 [.ifStmt (.boolLit ⟨.falseK, "false"⟩ false) []
      none, .intLit ⟨.intK, "42"⟩ 42] .vnil 0 emptyStateA) = some 42 ∧
    (∀ (fuel : Nat) (stmt : NodeB) (rest : List NodeB) (res : ValueB)
        (sc : Nat) (st : StateB) (v : ValueB) (st1 : StateB),
      isIfOrReturnB stmt = true →
      evalB fuel stmt sc st = .ok (v, st1) →
      evalBlockB (fuel + 1) (stmt :: rest) res sc st = .ok (v, st1)) := by
  refine ⟨?_, ?_, by decide, ?_⟩
  · intro fuel stm rest res env st st1 v hnil hkind heval hv
    rw [evalBlockA_cons_succ, if_neg (by simp [hnil]), heval]
    simp [Res.bind, hv, hkind]
  · intro fuel stm rest res env st st1 hnil heval
    rw [evalBlockA_cons_succ, if_neg (by simp [hnil]), heval]
    simp [Res.bind, ValueA.isNilV]
  · intro fuel stmt rest res sc st v st1 hkind heval
    rw [evalBlockB_cons_succ, heval]
    simp [Res.bind, hkind]

theorem c4_witness :
    evalBlockA 3 [.retStmt (.intLit ⟨.intK, "7"⟩ 7),
        .intLit ⟨.intK, "8"⟩ 8] .vnil 0 emptyStateA =
      .ok (.vint 7, emptyStateA) :=
  c4_block_early_return.1 2 (.retStmt (.intLit ⟨.intK, "7"⟩ 7))
    [.intLit ⟨.intK, "8"⟩ 8] .vnil 0 emptyStateA emptyStateA (.vint 7)
    rfl rfl rfl rfl

/-! ### C5 -/

/-- The closure test program for the `Scope` evaluator:
`outer` returns `inner`, which reads `outer`'s parameter `v`; `a` and `b`
come from two calls of `outer`; a top-level `v = 999` mutation happens
after both definitions; then both closures are called.  The `inner`
literal is ONE `FunctionNode` (allocation index 0), so both calls of
`outer` return the same pointer and the second call overwrites the shared
`Scope` field. -/
def closureProgB : List NodeB :=
  [.fnN "outer" ["v"]
     [.fnN "inner" [] [.retN (.identB "v")] 0, .retN (.identB "inner")] 1,
   .varN (.identB "a") (.callN (.identB "outer") [.intN 1]),
   .varN (.identB "b") (.callN (.identB "outer") [.intN 2]),
   .varN (.identB "v") (.intN 999),
   .varN (.identB "r1") (.callN (.identB "a") []),
   .varN (.identB "r2") (.callN (.identB "b") [])]

/-- The closure test program for the variant-A pipeline (closures are called
through an array cell, the shape `analyzer` can parse a call for). -/
def closureSrcA : String :=
  "fn outer(v) { return fn inner() { return v } } arr = [outer(1), outer(2)] v = 999 r1 = arr[0]() r2 = arr[1]() r1 * 10 + r2"

/-- C5 counterexample: in the `Scope` evaluator the claim fails.  The two
calls `outer(1)` and `outer(2)` both evaluate the ONE `inner` literal, and
`FunctionNode.Eval` (pointer receiver) overwrites the shared node's
`Scope` field each time, so `a` and `b` are the same pointer whose
captured scope is the second call's; the first closure therefore reads
`v = 2`, not the definition-time `v = 1` the claim requires. -/
theorem c5_counterexample :
    finalVarIntB (evalNodesB 60 closureProgB .vnil 0 emptyStateB) "r1" =
      some 2 ∧
    finalVarIntB (evalNodesB 60 closureProgB .vnil 0 emptyStateB) "r2" =
      some 2 ∧
    (some 2 : Option Int) ≠ some 1 :=
  ⟨by decide, by decide, by decide⟩

/-- C5 (amended): in the `Environment` evaluator the claim holds — a
function literal's evaluation (value receiver) snapshots the current
environment into the returned value, and a call binds parameters in a
fresh child of that snapshot, so the two-closure program observes
definition-time values (r1 = 1, r2 = 2, total 12) despite `v = 999`.  In
the `Scope` evaluator, `FunctionNode.Eval` writes the current scope into
the single shared AST node (`setFnScope`) whose slot `applyFunction` reads
back only at call time, so every closure made from one `fn` literal
observes the literal's most recent defining scope: in the two-closure
program both calls yield the second instantiation's 2, and the top-level
`v = 999` stays invisible to them. -/
theorem c5_closures :
    resIntA (runProgramA 90 closureSrcA) = some 12 ∧
    (∀ (fuel : Nat) (name : String) (params : List IdentA)
        (body : List NodeA) (env : Nat) (st : StateA),
      evalA (fuel + 1) (.funcLit name params body) env st =
        .ok (.vfn name params body env,
          setFuncA st env name (.vfn name params body env))) ∧
    (∀ (fuel : Nat) (params : List IdentA) (body : List NodeA) (fenv : Nat)
        (args : List ValueA) (st : StateA),
      applyFunctionA (fuel + 1) params body fenv args true st =
        if args.length < params.length then .fatal "missing call argument"
        else evalBlockA fuel body .vnil st.heap.length
          (bindParamsA { st with heap := st.heap ++ [⟨[], [], some fenv⟩] }
            st.heap.length params args)) ∧
    (∀ (fuel : Nat) (name : String) (params : List String)
        (body : List NodeB) (fid : Nat) (sc : Nat) (st : StateB),
      evalB (fuel + 1) (.fnN name params body fid) sc st =
        .ok (.vfn name params body fid,
          setFuncB (setFnScope st fid sc) sc name
            (.vfn name params body fid))) ∧
    (∀ (fuel : Nat) (fnNode : NodeB) (args : List NodeB) (sc : Nat)
        (st : StateB),
      evalB (fuel + 1) (.callN fnNode args) sc st =
        (evalB fuel fnNode sc st).bind fun (fv, st1) =>
          match fv with
          | .vfn _ params body fid =>
            (evalListB fuel args sc st1).bind fun (argvs, st2) =>
              applyFunctionB fuel params body (getFnScope st2 fid) argvs
                true st2
          | _ => .fatal "Attempted to call a non-function") ∧
    (∀ (fuel : Nat) (params : List String) (body : List NodeB) (fsc : Nat)
        (args : List ValueB) (st : StateB),
      applyFunctionB (fuel + 1) params body (some fsc) args true st =
        if args.length < params.length then .fatal "missing call argument"
        else evalBlockB fuel body .vnil st.heap.length
          (bindParamsB { st with heap := st.heap ++ [⟨[], [], some fsc⟩] }
            st.heap.length params args)) ∧
    finalVarIntB (evalNodesB 60 closureProgB .vnil 0 emptyStateB) "v" =
      some 999 ∧
    getFnScope ((evalNodesB 60 closureProgB .vnil 0 emptyStateB).stateD
        emptyStateB) 0 = some 2 :=
  ⟨by decide, fun _ _ _ _ _ _ => rfl, fun _ _ _ _ _ _ => rfl,
   fun _ _ _ _ _ _ _ => rfl, fun _ _ _ _ _ => rfl, fun _ _ _ _ _ _ => rfl,
   by decide, by decide⟩

/-! ### C6 -/

/-- A `Scope` whose root binds the name `n` both as a variable (1) and as a
function value. -/
def twoNamespaceStB : StateB :=
  ⟨[⟨[("n", .vint 1)], [("n", .vfn "n" [] [] 0)], none⟩], [], []⟩

/-- C6 counterexample: in the `Environment` evaluator an unresolved variable
reference evaluates to a silent nil, not a fatal error (`v, _ :=` discards
the lookup flag); and in the `Scope` evaluator a plain reference that is
not followed by a call still resolves against the FUNCTION namespace first,
returning the function value instead of the variable the claim requires. -/
theorem c6_counterexample :
    evalA 5 (.identN ⟨⟨.identK, "x"⟩, false⟩) 0 emptyStateA =
      .ok (.vnil, emptyStateA) ∧
    evalB 5 (.identB "n") 0 twoNamespaceStB =
      .ok (.vfn "n" [] [] 0, twoNamespaceStB) ∧
    ValueB.vfn "n" [] [] 0 ≠ .vint 1 :=
  ⟨rfl, rfl, nofun⟩

/-- C6 (amended): the `analyzer`/`Environment` variant marks a reference as
a function reference exactly when it is immediately followed by `(` and
resolves it against the corresponding namespace, with lookup walking the
scope chain outward and returning the first match — but an unresolved
reference silently yields nil.  The `Parser`/`Scope` variant resolves every
reference against the function namespace first, then the variable
namespace, and only a reference missing from both is the fatal
"Undefined identifier" error. -/
theorem c6_identifier_resolution :
    (∀ s : PSA, (parseIdentIdA s).isFunc = true ↔ s.nxt.kind = .lparenK) ∧
    (∀ (fuel : Nat) (lex : Lexeme) (env : Nat) (st : StateA),
      evalA (fuel + 1) (.identN ⟨lex, true⟩) env st =
        .ok ((getFuncA st env lex.text).getD .vnil, st)) ∧
    (∀ (fuel : Nat) (lex : Lexeme) (env : Nat) (st : StateA),
      evalA (fuel + 1) (.identN ⟨lex, false⟩) env st =
        .ok ((getVarA st env lex.text).getD .vnil, st)) ∧
    (∀ (d : Nat) (st : StateA) (envId : Nat) (name : String) (e : EnvA)
        (v : ValueA),
      st.heap.get? envId = some e → assocGet e.vars name = some v →
      getVarChainA (d + 1) st envId name = some v) ∧
    (∀ (d : Nat) (st : StateA) (envId : Nat) (name : String) (e : EnvA)
        (p : Nat),
      st.heap.get? envId = some e → assocGet e.vars name = none →
      e.parent = some p →
      getVarChainA (d + 1) st envId name = getVarChainA d st p name) ∧
    (∀ (d : Nat) (st : StateA) (envId : Nat) (name : String) (e : EnvA),
      st.heap.get? envId = some e → assocGet e.vars name = none →
      e.parent = none → getVarChainA (d + 1) st envId name = none) ∧
    (∀ (fuel : Nat) (n : String) (sc : Nat) (st : StateB) (f : ValueB),
      getFuncB st sc n = some f →
      evalB (fuel + 1) (.identB n) sc st = .ok (f, st)) ∧
    (∀ (fuel : Nat) (n : String) (sc : Nat) (st : StateB) (v : ValueB),
      getFuncB st sc n = none → getVarB st sc n = some v →
      evalB (fuel + 1) (.identB n) sc st = .ok (v, st)) ∧
    (∀ (fuel : Nat) (n : String) (sc : Nat) (st : StateB),
      getFuncB st sc n = none → getVarB st sc n = none →
      evalB (fuel + 1) (.identB n) sc st =
        .fatal ("Undefined identifier: " ++ n)) := by
  have hB : ∀ (fuel : Nat) (n : String) (sc : Nat) (st : StateB),
      evalB (fuel + 1) (.identB n) sc st =
        (match getFuncB st sc n with
         | some f => Res.ok (f, st)
         | none =>
           match getVarB st sc n with
           | some v => Res.ok (v, st)
           | none => Res.fatal ("Undefined identifier: " ++ n)) :=
    fun _ _ _ _ => rfl
  refine ⟨fun s => by simp [parseIdentIdA], fun _ _ _ _ => rfl,
    fun _ _ _ _ => rfl, ?_, ?_, ?_, ?_, ?_, ?_⟩
  · intro d st envId name e v h1 h2
    simp only [getVarChainA, h1, h2]
  · intro d st envId name e p h1 h2 h3
    simp only [getVarChainA, h1, h2, h3]
  · intro d st envId name e h1 h2 h3
    simp only [getVarChainA, h1, h2, h3]
  · intro fuel n sc st f hf
    rw [hB, hf]
  · intro fuel n sc st v hf hv
    rw [hB, hf, hv]
  · intro fuel n sc st hf hv
    rw [hB, hf, hv]

theorem c6_witness :
    evalB 1 (.identB "zz") 0 emptyStateB =
      .fatal ("Undefined identifier: " ++ "zz") ∧
    evalA 1 (.identN ⟨⟨.identK, "y"⟩, true⟩) 0 emptyStateA =
      .ok (.vnil, emptyStateA) :=
  ⟨c6_identifier_resolution.2.2.2.2.2.2.2.2 0 "zz" 0 emptyStateB rfl rfl,
   (c6_identifier_resolution.2.1 0 ⟨.identK, "y"⟩ 0 emptyStateA).trans rfl⟩

/-! ### C7 -/

/-- C7 counterexample: the scanner does NOT abort on an unterminated string
or on an unrecognized character; `"abc` (no closing quote) still emits a
STRING token, and `@` scans to just the EOF token with no diagnostic. -/
theorem c7_counterexample :
    createScannerToks 20 "\"abc" = .ok [⟨.stringK, "abc"⟩, ⟨.eofK, ""⟩] ∧
    createScannerToks 20 "@" = .ok [⟨.eofK, ""⟩] :=
  ⟨by decide, by decide⟩

theorem scanStringLoop_no_quote :
    ∀ (body acc : List Char), '"' ∉ body →
      scanStringLoop acc body = (acc ++ body, []) := by
  intro body
  induction body with
  | nil => intro acc _; simp [scanStringLoop]
  | cons c rest ih =>
    intro acc h
    have hc : ¬(c = '"') := fun hh => h (by rw [hh]; exact List.mem_cons_self _ _)
    simp only [scanStringLoop]
    rw [if_neg hc, ih (acc ++ [c]) (fun hm => h (List.mem_cons_of_mem c hm))]
    simp

/-- C7 (amended): at end of input inside a string literal the scanner emits
a STRING token holding the text read so far (with backslash-quote
unescaping applied) followed by EOF — no error; and an unrecognized single
character is silently skipped, producing no token and no error. -/
theorem c7_scanner_is_lenient :
    (∀ (body : List Char) (fuel : Nat), '"' ∉ body →
      scanTokens (fuel + 2) ('"' :: body) =
        .ok [⟨.stringK, String.mk (replaceBackslashQuote body)⟩,
          ⟨.eofK, ""⟩]) ∧
    (∀ (c : Char) (fuel : Nat), symbolMapSingle c = none → ¬(c = '"') →
      isDigitGo c = false → isLetterGo c = false →
      scanTokens (fuel + 2) [c] = .ok [⟨.eofK, ""⟩]) := by
  have hnil : ∀ f : Nat, scanTokens (f + 1) [] = .ok [⟨.eofK, ""⟩] :=
    fun f => by simp [scanTokens]
  constructor
  · intro body fuel h
    have hs : scanStringTok body =
        (⟨.stringK, String.mk (replaceBackslashQuote body)⟩, []) := by
      simp [scanStringTok, scanStringLoop_no_quote body [] h]
    simp only [scanTokens, if_pos]
    rw [hs]
    show (match scanTokens (fuel + 1) [] with
      | Res.ok toks =>
        Res.ok (Lexeme.mk .stringK (String.mk (replaceBackslashQuote body))
          :: toks)
      | .fatal m => .fatal m
      | .spin => .spin) = _
    rw [hnil fuel]
  · intro c fuel h1 h2 h3 h4
    simp only [scanTokens]
    rw [if_neg h2, if_neg (by simp [h3]), if_neg (by simp [h4])]
    simp only [scanSymbolStep, h1]
    exact hnil fuel

theorem c7_witness :
    scanTokens 12 ('"' :: ['a', 'b', 'c']) =
      .ok [⟨.stringK, String.mk (replaceBackslashQuote ['a', 'b', 'c'])⟩,
        ⟨.eofK, ""⟩] ∧
    scanTokens 7 ['@'] = .ok [⟨.eofK, ""⟩] :=
  ⟨c7_scanner_is_lenient.1 ['a', 'b', 'c'] 10 (by decide),
   c7_scanner_is_lenient.2 '@' 5 (by decide) (by decide) (by decide)
     (by decide)⟩

/-! ### C8 -/

/-- The stable parser state at end of stream: current and lookahead both
EOF, channel drained. -/
def eofPSA : PSA := ⟨eofLex, eofLex, []⟩

/-- The token stream of the unmatched-brace script `if true {`. -/
def ifTrueToks : List Lexeme :=
  [⟨.ifK, "if"⟩, ⟨.trueK, "true"⟩, ⟨.lcurlyK, "\x7b"⟩, ⟨.eofK, ""⟩]

def s0IfTrue : PSA :=
  ⟨⟨.ifK, "if"⟩, ⟨.trueK, "true"⟩, [⟨.lcurlyK, "\x7b"⟩, ⟨.eofK, ""⟩]⟩

theorem parseBlockLoopA_eof :
    ∀ (fuel : Nat) (acc : List NodeA),
      parseBlockLoopA fuel acc eofPSA = none := by
  intro fuel
  induction fuel with
  | zero => intro acc; rfl
  | succ f ih =>
    intro acc
    rw [parseBlockLoopA_succ, if_neg (by decide)]
    rcases f with _ | _ | g
    · rfl
    · rfl
    · rw [show parseExprA (g + 2) 1 (advanceA eofPSA) =
        some (.nilNode, eofPSA) from rfl]
      exact ih _

theorem parseBlockA_unmatched :
    ∀ fuel : Nat, parseBlockA fuel ⟨⟨.lcurlyK, "\x7b"⟩, eofLex, []⟩ = none := by
  intro fuel
  rcases fuel with _ | f
  · rfl
  rw [show parseBlockA (f + 1) ⟨⟨.lcurlyK, "\x7b"⟩, eofLex, []⟩ =
    parseBlockLoopA f [] ⟨⟨.lcurlyK, "\x7b"⟩, eofLex, []⟩ from rfl]
  rcases f with _ | g
  · rfl
  rw [parseBlockLoopA_succ, if_neg (by decide)]
  rcases g with _ | _ | j
  · rfl
  · rfl
  · rw [show parseExprA (j + 2) 1 (advanceA ⟨⟨.lcurlyK, "\x7b"⟩, eofLex, []⟩) =
      some (.nilNode, eofPSA) from rfl]
    exact parseBlockLoopA_eof _ _

theorem parseIfA_ifTrue : ∀ fuel : Nat, parseIfA fuel s0IfTrue = none := by
  intro fuel
  rcases fuel with _ | m
  · rfl
  rcases m with _ | m
  · rfl
  rcases m with _ | m
  · rfl
  show (match parseBlockA (m + 2) ⟨⟨.lcurlyK, "\x7b"⟩, eofLex, []⟩ with
    | none => none
    | some (thenB, s2) =>
      if s2.nxt.kind = .elseK then
        match parseBlockA (m + 2) (advanceA (advanceA s2)) with
        | none => none
        | some (elseB, s3) =>
          some (NodeA.ifStmt (.boolLit ⟨.trueK, "true"⟩ (parseBoolGo "true"))
            thenB (some elseB), s3)
      else
        some (NodeA.ifStmt (.boolLit ⟨.trueK, "true"⟩ (parseBoolGo "true"))
          thenB none, s2)) = none
  rw [parseBlockA_unmatched (m + 2)]

/-- C8: an unmatched `{` is a syntax-class error in the `Parser` variant
(`expect(RCURLY)` dies at EOF), but the `analyzer` variant's `parseBlock`
never terminates on it — it returns the out-of-fuel marker for EVERY fuel
bound, both at the block loop itself and for the whole program `if true {`;
the claim's required behavior (always terminate with a syntax error) is
violated by the analyzer. -/
theorem c8_unmatched_brace :
    createScannerToks 30 "if true \x7b" = .ok ifTrueToks ∧
    (∀ fuel : Nat, parseProgramA fuel ifTrueToks = none) ∧
    (∀ (fuel : Nat) (acc : List NodeA),
      parseBlockLoopA fuel acc eofPSA = none) ∧
    parseBlockB 10 (initPSB [⟨.lcurlyT, "\x7b"⟩, ⟨.eofT, ""⟩]) =
      .fatal "Expected RCURLY, got EOF" ∧
    (∀ s : PSB, s.cur.ttype = .eofT →
      expectB .rcurlyT s = .fatal "Expected RCURLY, got EOF") := by
  have hpd : ∀ n, prefixDispatchA n s0IfTrue = none := by
    intro n
    rcases n with _ | m
    · rfl
    · show parseIfA m s0IfTrue = none
      exact parseIfA_ifTrue m
  have hpe : ∀ n, parseExprA n 1 s0IfTrue = none := by
    intro n
    rcases n with _ | m
    · rfl
    · rw [parseExprA_succ, hpd]
  refine ⟨by decide, ?_, parseBlockLoopA_eof, rfl, ?_⟩
  · intro fuel
    rcases fuel with _ | f
    · rfl
    show processLoopA (f + 1) [] s0IfTrue = none
    rw [processLoopA_succ, if_neg (by decide), hpe]
  · intro s h
    rw [expectB, if_neg (by rw [h]; decide), h]
    rfl

theorem c8_witness :
    expectB .rcurlyT ⟨⟨.eofT, ""⟩, zeroTok, [], 0⟩ =
      .fatal "Expected RCURLY, got EOF" :=
  c8_unmatched_brace.2.2.2.2 ⟨⟨.eofT, ""⟩, zeroTok, [], 0⟩ rfl

/-! ### C9 -/

/-- C9 (implicit): in the `Environment` evaluator every infix operator
application absorbs nil operands: a nil left operand makes the whole
expression evaluate to the right operand's value unchanged, and a nil right
operand to the (non-nil) left operand's value unchanged, for every
operator. -/
theorem c9_nil_absorption :
    (∀ (op : String) (r : ValueA), infixEvalA op .vnil r = .ok r) ∧
    (∀ (op : String) (l : ValueA), l.isNilV = false →
      infixEvalA op l .vnil = .ok l) ∧
    (∀ (fuel : Nat) (lexop : Lexeme) (L R : NodeA) (env : Nat)
        (st st1 st2 : StateA) (v : ValueA),
      evalA fuel L env st = .ok (.vnil, st1) →
      evalA fuel R env st1 = .ok (v, st2) →
      evalA (fuel + 1) (.infixOpN lexop L R) env st = .ok (v, st2)) ∧
    (∀ (fuel : Nat) (lexop : Lexeme) (L R : NodeA) (env : Nat)
        (st st1 st2 : StateA) (l : ValueA),
      evalA fuel L env st = .ok (l, st1) → l.isNilV = false →
      evalA fuel R env st1 = .ok (.vnil, st2) →
      evalA (fuel + 1) (.infixOpN lexop L R) env st = .ok (l, st2)) := by
  have h1 : ∀ (op : String) (r : ValueA), infixEvalA op .vnil r = .ok r :=
    fun op r => rfl
  have h2 : ∀ (op : String) (l : ValueA), l.isNilV = false →
      infixEvalA op l .vnil = .ok l := by
    intro op l h
    cases l
    case vnil => simp [ValueA.isNilV] at h
    all_goals rfl
  refine ⟨h1, h2, ?_, ?_⟩
  · intro fuel lexop L R env st st1 st2 v hL hR
    rw [evalA_infix_succ, hL]
    simp only [Res.bind]
    rw [hR]
    simp only [Res.bind, h1]
  · intro fuel lexop L R env st st1 st2 l hL hl hR
    rw [evalA_infix_succ, hL]
    simp only [Res.bind]
    rw [hR]
    simp only [Res.bind, h2 _ _ hl]

theorem c9_witness :
    evalA 2 (.infixOpN ⟨.plusK, "+"⟩ (.identN ⟨⟨.identK, "x"⟩, false⟩)
        (.intLit ⟨.intK, "5"⟩ 5)) 0 emptyStateA =
      .ok (.vint 5, emptyStateA) :=
  c9_nil_absorption.2.2.1 1 ⟨.plusK, "+"⟩ _ _ 0 emptyStateA emptyStateA
    emptyStateA (.vint 5) rfl rfl

/-! ### C10 -/

/-- C10 (implicit): before any tokenization `CreateScanner` rewrites the
entire raw source, replacing every backslash-n / backslash-t / backslash-r
pair with the corresponding control character — everywhere, not only inside
string literals (`a\nb` outside quotes scans as the two identifiers `a`,
`b`) — and this pre-substitution is the only mechanism turning those string
escapes into control characters (the string scanner itself leaves
backslash-n untouched). -/
theorem c10_escape_prepass :
    (∀ (fuel : Nat) (src : String),
      createScannerToks fuel src = scanTokens fuel (replaceEscapes src.data)) ∧
    (∀ rest, replaceEscapes ('\\' :: 'n' :: rest) = '\n' :: replaceEscapes rest) ∧
    (∀ rest, replaceEscapes ('\\' :: 't' :: rest) = '\t' :: replaceEscapes rest) ∧
    (∀ rest, replaceEscapes ('\\' :: 'r' :: rest) = '\r' :: replaceEscapes rest) ∧
    createScannerToks 20 "a\\nb" =
      .ok [⟨.identK, "a"⟩, ⟨.identK, "b"⟩, ⟨.eofK, ""⟩] ∧
    createScannerToks 20 "\"a\\nb\"" =
      .ok [⟨.stringK, "a\nb"⟩, ⟨.eofK, ""⟩] ∧
    scanStringTok ('a' :: '\\' :: 'n' :: 'b' :: '"' :: []) =
      (⟨.stringK, "a\\nb"⟩, []) :=
  ⟨fun _ _ => rfl, fun _ => rfl, fun _ => rfl, fun _ => rfl,
   by decide, by decide, by decide⟩

end GoScript
